import Mathlib

/-!
Verification development for the thor SPDY engine (src/thor/spdy).

Shallow embedding conventions:
* Python byte strings are `List Nat` (one Nat per octet, values < 256 at use sites).
* Mutable objects (message handler, session, server connection) are records;
  methods become state-passing functions.
* `struct.pack`/`unpack` big-endian fields are modelled with explicit base-256
  arithmetic.  Machine integers are `Nat` / `Int` with explicit masks.
* Exceptions raised and caught inside a method are modelled by sum-type
  outcomes; error callbacks (`_handle_error`) are modelled by accumulating
  `ErrReport` values (the error class, status code, optional stream id and the
  fatal flag; human-readable messages are not modelled).
* The source is a Python 2 work in progress.  Spelling-level slips with a
  unique obvious referent are normalised when embedding (for instance the
  bare name WAITING for InputStates.WAITING, the call self._close for
  self.close, _close_exchg for _close_exchange, a missing comma in an enum
  literal).  All value-level semantics - argument order at call sites,
  operator precedence, indexing, check order and control flow - are kept
  exactly as written; several claims hinge on such details.
* zlib compression contexts are external: `_compress` / `_decompress` are
  function parameters; decompression failure is an `Except.error` result.
-/

namespace Thor

/-- One octet string: Python 2 `str` restricted to byte values. -/
abbrev Bytes := List Nat

/-- One header tuple `(name, value)`. -/
abbrev Hdr := Bytes × Bytes

/-- Big-endian 32-bit encoding, as `struct.pack("!I", x)`. -/
def be32 (x : Nat) : Bytes :=
  [x / 2 ^ 24 % 256, x / 2 ^ 16 % 256, x / 2 ^ 8 % 256, x % 256]

/-- Big-endian 16-bit encoding, as `struct.pack("!H", x)`. -/
def be16 (x : Nat) : Bytes :=
  [x / 2 ^ 8 % 256, x % 256]

/-- Value of four big-endian octets, as `struct.unpack("!I", ...)`. -/
def beVal (b0 b1 b2 b3 : Nat) : Nat :=
  ((b0 * 256 + b1) * 256 + b2) * 256 + b3

/-- `STREAM_MASK = 0x7fffffff` (frames.py line 354, common.py line 478). -/
def streamMask : Nat := 0x7fffffff

/-- Python `str.lower` on a byte string (ASCII). -/
def pyLower (s : Bytes) : Bytes :=
  s.map (fun c => if 65 ≤ c ∧ c ≤ 90 then c + 32 else c)

/-- Python `'\x00\x00' in v`: two consecutive NUL octets occur in `v`. -/
def hasDoubleNul : Bytes → Bool
  | 0 :: 0 :: _ => true
  | _ :: rest => hasDoubleNul rest
  | [] => false

/-- Python `v.split('\x00')`. -/
def splitOnNul (v : Bytes) : List Bytes :=
  match v with
  | [] => [[]]
  | 0 :: rest => [] :: splitOnNul rest
  | c :: rest =>
    match splitOnNul rest with
    | [] => [[c]]
    | seg :: segs => (c :: seg) :: segs

/-- common.py `expand_dups`: split NUL-joined values, keeping nonempty segments. -/
def expandDups (hdrTuples : List Hdr) : List Hdr :=
  hdrTuples.flatMap (fun nv => ((splitOnNul nv.2).filter (fun s => s ≠ [])).map (fun s => (nv.1, s)))

/-- Names seen so far, in first-occurrence order (for `collapse_dups`). -/
def dedupNames (l : List Hdr) : List Bytes :=
  (l.map Prod.fst).foldl (fun acc n => if n ∈ acc then acc else acc ++ [n]) []

/-- Values listed under a name. -/
def valuesOf (n : Bytes) (l : List Hdr) : List Bytes :=
  (l.filter (fun nv => nv.1 = n)).map Prod.snd

/-- NUL-join a list of byte strings, as `'\x00'.join(v)`. -/
def joinNul : List Bytes → Bytes
  | [] => []
  | [v] => v
  | v :: rest => v ++ 0 :: joinNul rest

/-- common.py `collapse_dups`: group values of identical names, NUL-joined.
(The Python dict iteration order is unspecified; modelled as first-occurrence
order.) -/
def collapseDups (l : List Hdr) : List Hdr :=
  (dedupNames l).map (fun n => (n, joinNul (valuesOf n l)))

/-- Error classes from thor/spdy/error.py that the modelled code reports. -/
inductive ErrClass
  | parsingError
  | headerError
  | frameSizeError
  | spdyVersionError
  | streamIdError
  | connClosedError
  | protocolError
  deriving DecidableEq

/-- One `_handle_error(err, status, stream_id, fatal)` callback as issued by
frames.py SpdyMessageHandler (err may be None, frames.py line 932). -/
structure ErrReport where
  cls : Option ErrClass
  status : Nat
  streamId : Option Nat
  fatal : Bool
  deriving DecidableEq

end Thor

namespace Thor

/-! ### frames.py `_parse_hdrs` (lines 752-864)

The header-block loop, translated check for check in source order.  The
`try`/bare-`except` of the source becomes the `exc` outcome; every
stream-scoped `HeaderError` return becomes `hdrFail`. -/

/-- Outcome of the header parsing loop. -/
inductive LoopOut
  | done (hdrs : List Hdr)
  | hdrFail
  | exc
  deriving DecidableEq

/-- The `while cursor < len(data)` loop of `_parse_hdrs`, on the bytes after
the 4-byte count.  Fuel-indexed for structural recursion; fuel
`data.length + 1` always suffices (each pass strictly consumes bytes). -/
def parseLoopF : Nat → List Bytes → List Hdr → Bytes → LoopOut
  | 0, _, _, _ => .exc
  | _ + 1, _, acc, [] => .done acc
  | k + 1, names, acc, b0 :: b1 :: b2 :: b3 :: r1 =>
    let nameLen := beVal b0 b1 b2 b3
    if 2 ^ 24 < nameLen then .hdrFail
    else if nameLen = 0 then .hdrFail
    else
      let name := r1.take nameLen
      if pyLower name ≠ name then .hdrFail
      else if 0 ∈ name then .hdrFail
      else if name ∈ names then .hdrFail
      else
        match r1.drop nameLen with
        | c0 :: c1 :: c2 :: c3 :: r2 =>
          let valLen := beVal c0 c1 c2 c3
          if 2 ^ 24 < valLen then .hdrFail
          else
            let v := r2.take valLen
            match v with
            | [] => .exc
            | h :: _ =>
              if h = 0 ∨ v.getLastD 0 = 0 ∨ hasDoubleNul v then .hdrFail
              else parseLoopF k (name :: names) (acc ++ [(name, v)]) (r2.drop valLen)
        | _ => .exc
  | _ + 1, _, _, _ => .exc

/-- `_parse_hdrs` on the decompressed block: read the count, run the loop,
check the count, expand NUL-joined duplicates. -/
def parseHdrsBody (d : Bytes) : LoopOut :=
  match d with
  | b0 :: b1 :: b2 :: b3 :: rest =>
    let num := beVal b0 b1 b2 b3
    if num = 0 then .done []
    else
      match parseLoopF (rest.length + 1) [] [] rest with
      | .done hdrs => if num ≠ hdrs.length then .hdrFail else .done (expandDups hdrs)
      | out => out
  | _ => .exc

/-- frames.py `_parse_hdrs(data, stream_id)`: empty input short-circuits,
decompression failure and loop exceptions are session-fatal `ParsingError`
(status `GoawayReasons.INTERNAL_ERROR = 2`, no stream id), every per-block
validation failure is a stream-scoped `HeaderError`
(status `StatusCodes.PROTOCOL_ERROR = 1`, the frame's stream id, not fatal). -/
def parseHdrs (dec : Bytes → Except Unit Bytes) (data : Bytes) (streamId : Nat) :
    Option (List Hdr) × List ErrReport :=
  if data = [] then (some [], [])
  else
    match dec data with
    | .error _ => (none, [⟨some .parsingError, 2, none, true⟩])
    | .ok d =>
      match parseHdrsBody d with
      | .done hdrs => (some hdrs, [])
      | .hdrFail => (none, [⟨some .headerError, 1, some streamId, false⟩])
      | .exc => (none, [⟨some .parsingError, 2, none, true⟩])

end Thor

namespace Thor

/-! ### frames.py `_parse_settings` (lines 866-905) -/

/-- Settings flag values and ids known to the code. -/
def settingsFlagsValues : List Nat := [0, 1, 2]

def settingsIdsValues : List Nat := [1, 2, 3, 4, 5, 6, 7, 8]

/-- Outcome of the settings parsing loop. -/
inductive SetOut
  | done (entries : List (Nat × Nat × Nat))
  | bad
  | exc
  deriving DecidableEq

/-- The `while cursor < len(data)` loop of `_parse_settings`. -/
def settingsLoopF : Nat → List (Nat × Nat × Nat) → Bytes → SetOut
  | 0, _, _ => .exc
  | _ + 1, acc, [] => .done acc
  | k + 1, acc, f :: d1 :: d2a :: d2b :: v0 :: v1 :: v2 :: v3 :: rest =>
    let id := d1 * 2 ^ 16 + (d2a * 256 + d2b)
    if f ∉ settingsFlagsValues then .bad
    else if id ∉ settingsIdsValues then .bad
    else settingsLoopF k (acc ++ [(f, id, beVal v0 v1 v2 v3)]) rest
  | _ + 1, _, _ => .exc

/-- frames.py `_parse_settings(data)`.  Validation failures are reported
(`ParsingError`, `GoawayReasons.PROTOCOL_ERROR = 1`, no stream, not fatal);
exceptions are reported (`ParsingError`, `GoawayReasons.INTERNAL_ERROR = 2`,
no stream, not fatal); both return None. -/
def parseSettings (data : Bytes) : Option (List (Nat × Nat × Nat)) × List ErrReport :=
  if data = [] then (some [], [])
  else
    match data with
    | b0 :: b1 :: b2 :: b3 :: rest =>
      let num := beVal b0 b1 b2 b3
      if num = 0 then (some [], [])
      else
        match settingsLoopF (rest.length + 1) [] rest with
        | .done entries =>
          if num ≠ entries.length then (none, [⟨some .parsingError, 1, none, false⟩])
          else (some entries, [])
        | .bad => (none, [⟨some .parsingError, 1, none, false⟩])
        | .exc => (none, [⟨some .parsingError, 2, none, false⟩])
    | _ => (none, [⟨some .parsingError, 2, none, false⟩])

/-! ### frames.py emitted frames

`_handle_input` builds frame objects using the classes' constructors.  The
`SynSteamFrame` constructor signature is
`(flags, stream_id, hdr_tuples, priority, stream_assoc_id, slot)`
(frames.py lines 424-431), so the positional call at lines 694-700 assigns a
wire integer to `hdr_tuples` and the parsed header list to `slot`; fields
that can receive either an integer or a header list are typed `PyV`. -/

/-- A dynamically typed constructor argument. -/
inductive PyV
  | int (n : Nat)
  | hdrs (l : List Hdr)
  deriving DecidableEq

/-- A frame as emitted to `_handle_frame`, fields as assigned by each
class constructor. -/
inductive EFrame
  | data (flags : Nat) (streamId : Option Nat) (payload : Bytes)
  | synStream (flags streamId : Nat) (hdrTuples : PyV) (priority streamAssocId : Nat) (slot : PyV)
  | synReply (flags streamId : Nat) (hdrTuples : List Hdr)
  | rstStream (streamId status : Nat)
  | settings (flags : Nat) (tuples : Option (List (Nat × Nat × Nat)))
  | ping (pingId : Nat)
  | goaway (lastStreamId reason : Nat)
  | headers (flags streamId : Nat) (hdrTuples : List Hdr)
  | windowUpdate (streamId size : Nat)
  | credential
  deriving DecidableEq

/-! ### frames.py `SpdyMessageHandler` input state (lines 610-750) -/

/-- `InputStates = enum('WAITING', 'READING_FRAME_DATA')`. -/
inductive IState
  | waiting
  | reading
  deriving DecidableEq

/-- The mutable parsing state of `SpdyMessageHandler`, plus the streams of
emitted frames and issued error callbacks. -/
structure HState where
  buffer : Bytes
  istate : IState
  frameType : Nat
  flags : Nat
  streamId : Option Nat
  frameLen : Nat
  version : Nat
  emitted : List EFrame
  errors : List ErrReport
  deriving DecidableEq

/-- The state right after `SpdyMessageHandler.__init__`.  (Python inits
frame type/flags/version to None; they are read only after being set, so
they are modelled as 0.) -/
def initHState : HState :=
  ⟨[], .waiting, 0, 0, none, 0, 0, [], []⟩

def addErr (s : HState) (r : ErrReport) : HState :=
  { s with errors := s.errors ++ [r] }

def emitFrame (s : HState) (f : EFrame) : HState :=
  { s with emitted := s.emitted ++ [f] }

/-- `FrameTypes.values`. -/
def frameTypesValues : List Nat := [0, 1, 2, 3, 4, 6, 7, 8, 9, 16]

/-- `ValidFlags[t]` (frames.py lines 290-300, `Flags` members normalised to
their numeric values 0/1/2). -/
def validFlagsFor (t : Nat) : List Nat :=
  if t = 0 then [0, 1]
  else if t = 1 then [0, 1, 2]
  else if t = 2 then [0, 1]
  else if t = 4 then [0, 1]
  else if t = 8 then [0, 1]
  else [0]

/-- `MinFrameLen[t]` (frames.py lines 302-312). -/
def minFrameLen (t : Nat) : Nat :=
  if t = 0 then 0
  else if t = 1 then 10
  else if t = 2 then 4
  else if t = 3 then 8
  else if t = 4 then 4
  else if t = 6 then 4
  else if t = 7 then 8
  else if t = 8 then 4
  else if t = 9 then 8
  else 6

/-- frames.py `_valid_frame_type` (lines 969-978). -/
def checkType (s : HState) : Bool × HState :=
  if s.frameType ∈ frameTypesValues then (true, s)
  else (false, addErr s ⟨some .parsingError, 1, none, true⟩)

/-- frames.py `_valid_frame_version` (lines 950-967); `SPDY_VERSION = 3`.
(The slip `unpack_from(...) & STREAM_MASK` missing the `[0]` index is
normalised to the first unpacked value.) -/
def checkVersion (s : HState) (fd : Bytes) : Bool × HState :=
  if s.frameType = 0 then (true, s)
  else if s.version ≠ 3 then
    if 4 ≤ fd.length ∧ s.frameType ∈ [1, 2, 8] then
      (false, addErr s ⟨some .spdyVersionError, 4,
        some (beVal (fd.getD 0 0) (fd.getD 1 0) (fd.getD 2 0) (fd.getD 3 0) % 2 ^ 31), false⟩)
    else (false, addErr s ⟨some .spdyVersionError, 1, none, true⟩)
  else (true, s)

/-- frames.py `_valid_frame_flags` (lines 980-990). -/
def checkFlags (s : HState) : Bool × HState :=
  if s.flags ∈ validFlagsFor s.frameType then (true, s)
  else (false, addErr s ⟨some .parsingError, 1, none, true⟩)

/-- frames.py `_valid_frame_size` (lines 907-948);
`_max_control_frame_size = 8192`. -/
def checkSize (s : HState) (fd : Bytes) : Bool × HState :=
  if s.frameType = 0 then (true, s)
  else if 8192 < s.frameLen + 8 then
    if 4 ≤ fd.length ∧ s.frameType ∈ [1, 2, 8] then
      (false, addErr (addErr s ⟨some .frameSizeError, 11,
          some (beVal (fd.getD 0 0) (fd.getD 1 0) (fd.getD 2 0) (fd.getD 3 0) % 2 ^ 31), false⟩)
        ⟨none, 2, none, true⟩)
    else (false, addErr s ⟨some .frameSizeError, 2, none, true⟩)
  else if s.frameLen < minFrameLen s.frameType then
    (false, addErr s ⟨some .parsingError, 2, none, true⟩)
  else (true, s)

/-- The typed body dispatch of `_handle_input` (frames.py lines 681-743),
after a complete frame body `fd` is available. -/
def parseBody (dec : Bytes → Except Unit Bytes) (s : HState) (fd : Bytes) : HState :=
  if s.frameType = 0 then
    emitFrame s (.data s.flags s.streamId fd)
  else if s.frameType = 1 then
    match fd with
    | a0 :: a1 :: a2 :: a3 :: b0 :: b1 :: b2 :: b3 :: p :: sl :: rest =>
      let sid := beVal a0 a1 a2 a3 % 2 ^ 31
      let assoc := beVal b0 b1 b2 b3 % 2 ^ 31
      let pri := p / 2 ^ 5
      let (ht, reps) := parseHdrs dec rest sid
      let s1 := { s with errors := s.errors ++ reps }
      match ht with
      | some tuples =>
        emitFrame s1 (.synStream s.flags sid (.int assoc) pri sl (.hdrs tuples))
      | none => s1
    | _ => s
  else if s.frameType = 2 then
    match fd with
    | a0 :: a1 :: a2 :: a3 :: rest =>
      let sid := beVal a0 a1 a2 a3 % 2 ^ 31
      let (ht, reps) := parseHdrs dec rest sid
      let s1 := { s with errors := s.errors ++ reps }
      match ht with
      | some tuples => emitFrame s1 (.synReply s.flags sid tuples)
      | none => s1
    | _ => s
  else if s.frameType = 3 then
    match fd with
    | a0 :: a1 :: a2 :: a3 :: b0 :: b1 :: b2 :: b3 :: _ =>
      emitFrame s (.rstStream (beVal a0 a1 a2 a3 % 2 ^ 31) (beVal b0 b1 b2 b3))
    | _ => s
  else if s.frameType = 4 then
    let (st, reps) := parseSettings fd
    emitFrame { s with errors := s.errors ++ reps } (.settings s.flags st)
  else if s.frameType = 6 then
    match fd with
    | a0 :: a1 :: a2 :: a3 :: _ => emitFrame s (.ping (beVal a0 a1 a2 a3))
    | _ => s
  else if s.frameType = 7 then
    match fd with
    | a0 :: a1 :: a2 :: a3 :: b0 :: b1 :: b2 :: b3 :: _ =>
      emitFrame s (.goaway (beVal a0 a1 a2 a3 % 2 ^ 31) (beVal b0 b1 b2 b3))
    | _ => s
  else if s.frameType = 8 then
    match fd with
    | a0 :: a1 :: a2 :: a3 :: rest =>
      let sid := beVal a0 a1 a2 a3 % 2 ^ 31
      let (ht, reps) := parseHdrs dec rest sid
      let s1 := { s with errors := s.errors ++ reps }
      match ht with
      | some tuples => emitFrame s1 (.headers s.flags sid tuples)
      | none => s1
    | _ => s
  else if s.frameType = 9 then
    match fd with
    | a0 :: a1 :: a2 :: a3 :: b0 :: b1 :: b2 :: b3 :: _ =>
      emitFrame s (.windowUpdate (beVal a0 a1 a2 a3 % 2 ^ 31) (beVal b0 b1 b2 b3 % 2 ^ 31))
    | _ => s
  else
    emitFrame s .credential

/-- Process a complete frame body: validity pre-checks in source order
(short-circuiting), then the per-type parse and emit. -/
def processFrame (dec : Bytes → Except Unit Bytes) (s : HState) (fd : Bytes) : HState :=
  let (ok1, s1) := checkType s
  if !ok1 then s1 else
  let (ok2, s2) := checkVersion s1 fd
  if !ok2 then s2 else
  let (ok3, s3) := checkFlags s2
  if !ok3 then s3 else
  let (ok4, s4) := checkSize s3 fd
  if !ok4 then s4 else
  parseBody dec s4 fd

/-- frames.py `_handle_input` (lines 649-750), fuel-indexed.  The caller has
already prepended the pending input buffer; `data` is the combined input.
A header read moves to `READING_FRAME_DATA` and recurses on the remaining
bytes; a complete body is processed, state returns to `WAITING`
(the source writes the bare name WAITING, line 744), and any leftover bytes
are handled in the same call. -/
def handleInputAux (dec : Bytes → Except Unit Bytes) : Nat → HState → Bytes → HState
  | 0, s, data => { s with buffer := data }
  | k + 1, s, data =>
    match s.istate with
    | .waiting =>
      match data with
      | b0 :: b1 :: b2 :: b3 :: b4 :: b5 :: b6 :: b7 :: rest =>
        let d1 := beVal b0 b1 b2 b3
        let s' :=
          if d1 / 2 ^ 31 % 2 = 1 then
            { s with flags := b4, version := d1 / 2 ^ 16 % 2 ^ 15,
                     frameType := d1 % 2 ^ 16, streamId := none,
                     frameLen := b5 * 2 ^ 16 + (b6 * 256 + b7), istate := .reading }
          else
            { s with flags := b4, frameType := 0, streamId := some (d1 % 2 ^ 31),
                     frameLen := b5 * 2 ^ 16 + (b6 * 256 + b7), istate := .reading }
        handleInputAux dec k s' rest
      | _ => { s with buffer := data }
    | .reading =>
      if s.frameLen ≤ data.length then
        let fd := data.take s.frameLen
        let rest := data.drop s.frameLen
        let s2 := { processFrame dec s fd with istate := .waiting }
        if rest = [] then s2 else handleInputAux dec k s2 rest
      else { s with buffer := data }

/-- frames.py `_handle_input(data)`: prepend the pending buffer and run the
state machine (fuel `2*length+3` always suffices). -/
def handleInput (dec : Bytes → Except Unit Bytes) (s : HState) (d : Bytes) : HState :=
  handleInputAux dec (2 * (s.buffer.length + d.length) + 3) { s with buffer := [] } (s.buffer ++ d)

end Thor

namespace Thor

/-! ### frames.py serialization (lines 358-604)

`list.sort()` on header tuples compares Python pairs of byte strings
lexicographically; it is modelled by insertion sort over that order.
Mutation of `self.hdr_tuples` is modelled by returning the updated frame
record together with the produced bytes. -/

/-- Python `<` on byte strings (lexicographic). -/
def strLt : Bytes → Bytes → Bool
  | [], [] => false
  | [], _ :: _ => true
  | _ :: _, [] => false
  | a :: as_, b :: bs => if a < b then true else if a = b then strLt as_ bs else false

/-- Python `<=` on `(name, value)` tuples of byte strings. -/
def pairLe (x y : Hdr) : Bool :=
  if strLt x.1 y.1 then true
  else if x.1 = y.1 then (if strLt x.2 y.2 then true else x.2 = y.2)
  else false

/-- Insert into a `pairLe`-sorted list. -/
def insertLe (x : Hdr) : List Hdr → List Hdr
  | [] => [x]
  | y :: ys => if pairLe x y then x :: y :: ys else y :: insertLe x ys

/-- `hdr_tuples.sort()`: a `pairLe`-sorted permutation. -/
def pySort (l : List Hdr) : List Hdr :=
  l.foldr insertLe []

/-- frames.py `SpdyFrame._serialize_headers` (lines 378-388, identical in
common.py lines 503-513): sort in place, collapse duplicate names, pack
`count (len name len value)*`.  Returns the bytes and the sorted tuple list
now held by the frame. -/
def serializeHeadersBytes (hdrTuples : List Hdr) : Bytes :=
  let sorted := pySort hdrTuples
  let collapsed := collapseDups sorted
  be32 collapsed.length ++
    collapsed.flatMap (fun nv => be32 nv.1.length ++ nv.1 ++ be32 nv.2.length ++ nv.2)

/-- frames.py `SpdyFrame._serialize_control_frame` (lines 369-376):
`pack("!HHI", 0x8000 + SPDY_VERSION, type, (flags << 24) + len, data)`. -/
def serializeControlFrame (type flags : Nat) (data : Bytes) : Bytes :=
  be16 (0x8000 + 3) ++ be16 type ++ be32 (flags * 2 ^ 24 + data.length) ++ data

/-- A SYN_STREAM frame as built by `SynSteamFrame.__init__`
(frames.py lines 424-431) with properly typed field values. -/
structure SynStreamF where
  flags : Nat
  streamId : Nat
  hdrTuples : List Hdr
  priority : Nat
  streamAssocId : Nat
  slot : Nat
  deriving DecidableEq

/-- frames.py `SynSteamFrame.serialize` (lines 442-450): compress the packed
headers, pack `(!IIBB) stream_id stream_assoc_id priority<<5 slot` and wrap
in a control frame.  Returns the bytes and the frame after the in-place
header sort. -/
def serializeSynStream (compress : Bytes → Bytes) (f : SynStreamF) : Bytes × SynStreamF :=
  let hdrs := compress (serializeHeadersBytes f.hdrTuples)
  let data := be32 (streamMask &&& f.streamId) ++ be32 (streamMask &&& f.streamAssocId) ++
    [f.priority * 2 ^ 5] ++ [f.slot] ++ hdrs
  (serializeControlFrame 1 f.flags data, { f with hdrTuples := pySort f.hdrTuples })

/-- A SYN_REPLY frame as built by `SynReplyFrame.__init__`. -/
structure SynReplyF where
  flags : Nat
  streamId : Nat
  hdrTuples : List Hdr
  deriving DecidableEq

/-- frames.py `SynReplyFrame.serialize` (lines 467-472). -/
def serializeSynReply (compress : Bytes → Bytes) (f : SynReplyF) : Bytes × SynReplyF :=
  let hdrs := compress (serializeHeadersBytes f.hdrTuples)
  let data := be32 (streamMask &&& f.streamId) ++ hdrs
  (serializeControlFrame 2 f.flags data, { f with hdrTuples := pySort f.hdrTuples })

/-- A HEADERS frame as built by `HeadersFrame.__init__`. -/
structure HeadersF where
  flags : Nat
  streamId : Nat
  hdrTuples : List Hdr
  deriving DecidableEq

/-- frames.py `HeadersFrame.serialize` (lines 489-494). -/
def serializeHeadersFrame (compress : Bytes → Bytes) (f : HeadersF) : Bytes × HeadersF :=
  let hdrs := compress (serializeHeadersBytes f.hdrTuples)
  let data := be32 (streamMask &&& f.streamId) ++ hdrs
  (serializeControlFrame 8 f.flags data, { f with hdrTuples := pySort f.hdrTuples })

/-- frames.py `DataFrame.serialize` (lines 413-418):
`pack("!II", STREAM_MASK & stream_id, (flags << 24) + len) + data`. -/
def serializeDataFrame (flags streamId : Nat) (payload : Bytes) : Bytes :=
  be32 (streamMask &&& streamId) ++ be32 (flags * 2 ^ 24 + payload.length) ++ payload

end Thor

namespace Thor

/-! ### common.py `SpdySession` (lines 1013-1388)

State and the error-routing, close and stream-id methods the claims cite.
Timers and the ping table are outside the claims and not modelled; event
emissions are accumulated in lists. -/

/-- `ExchangeStates = enum('WAITING', 'STARTED', 'DONE')`. -/
inductive EState
  | waiting
  | started
  | done
  deriving DecidableEq

/-- A `SpdyExchange` (common.py lines 737-766) with its delivered error
events. -/
structure Exch where
  streamId : Nat
  priority : Nat
  assocId : Nat
  pushed : Bool
  reqState : EState
  resState : EState
  delivered : List ErrClass
  deriving DecidableEq

/-- common.py `SpdyExchange.is_active` (lines 763-766). -/
def Exch.isActive (e : Exch) : Bool :=
  e.reqState ≠ .done ∨ e.resState ≠ .done

/-- A frame queued for output by the session. -/
inductive QFrame
  | goawayF (lastStreamId : Int) (reason : Nat)
  | rstF (streamId status : Nat)
  deriving DecidableEq

/-- A session-level emitted event. -/
inductive SEvent
  | errorEv (e : ErrClass)
  | closeEv
  | pauseEv (b : Bool)
  deriving DecidableEq

/-- `SpdySession` state (common.py lines 1026-1047). -/
structure Sess where
  exchanges : List Exch
  highestAccepted : Int
  sentGoaway : Bool
  tcpConn : Bool
  queued : List (Nat × QFrame)
  events : List SEvent
  deriving DecidableEq

/-- common.py `_close_exchange` (lines 1169-1179): force both directions
DONE; queue `RST_STREAM(stream_id, status)` at top priority when a status is
given. -/
def closeExchange (s : Sess) (sid : Nat) (status : Option Nat) : Sess :=
  let s1 := { s with exchanges := s.exchanges.map (fun e =>
      if e.streamId = sid then { e with reqState := .done, resState := .done } else e) }
  match status with
  | some st => { s1 with queued := s1.queued ++ [(0, .rstF sid st)] }
  | none => s1

/-- common.py `_close_active_exchanges` (lines 1181-1189): each active
exchange is closed (status None) and receives the error. -/
def closeActiveExchanges (s : Sess) (err : Option ErrClass) : Sess :=
  { s with exchanges := s.exchanges.map (fun e =>
      if e.isActive then
        { e with reqState := .done, resState := .done,
                 delivered := e.delivered ++ (match err with | some x => [x] | none => []) }
      else e) }

/-- common.py `SpdySession.close` (lines 1089-1106): no-op when the session
is inactive; otherwise mark GOAWAY sent, queue
`GoawayFrame(max(highest_accepted, 0), reason)` when a reason is given,
close all active exchanges with `ConnectionClosedError`, drop the transport
and emit `close`. -/
def sessClose (s : Sess) (reason : Option Nat) : Sess :=
  if !s.tcpConn then s
  else
    let s1 := { s with sentGoaway := true }
    let s2 := match reason with
      | some r => { s1 with queued := s1.queued ++ [(0, .goawayF (max s.highestAccepted 0) r)] }
      | none => s1
    let s3 := closeActiveExchanges s2 (some .connClosedError)
    { s3 with tcpConn := false, events := s3.events ++ [.closeEv] }

/-- common.py `SpdySession._handle_error` (lines 1149-1167): a missing
stream id means a session error (emit it, close all active exchanges with
it, close the session with the status); a present stream id means a stream
error (deliver to the exchange if it resolves and close it with the
status). -/
def sessHandleError (s : Sess) (err : Option ErrClass) (status : Option Nat)
    (streamId : Option Nat) : Sess :=
  match streamId with
  | none =>
    let s1 := match err with
      | some e => { s with events := s.events ++ [.errorEv e] }
      | none => s
    let s2 := closeActiveExchanges s1 err
    sessClose s2 status
  | some sid =>
    if s.exchanges.any (fun e => e.streamId = sid) then
      let s1 := match err with
        | some e => { s with exchanges := s.exchanges.map (fun ex =>
            if ex.streamId = sid then { ex with delivered := ex.delivered ++ [e] } else ex) }
        | none => s
      closeExchange s1 sid status
    else s

/-- common.py `MAX_STREAM_ID = 1 << 31 - 1` (line 479): Python precedence
makes this `1 << (31 - 1) = 2^30`, not `2^31 - 1`. -/
def maxStreamId : Nat := 1 <<< (31 - 1)

/-- common.py `_next_created_stream_id` (lines 1258-1262): add 2 to the
highest created id, raise `ValueError` when the result exceeds
`MAX_STREAM_ID`.  Returns the new id or the error together with the updated
counter (the increment happens before the check). -/
def nextCreatedStreamId (highestCreated : Nat) : Except Unit Nat × Nat :=
  let n := highestCreated + 2
  if maxStreamId < n then (.error (), n) else (.ok n, n)

/-- common.py `_valid_server_stream_id` (lines 1264-1273): a
server-initiated id must be even; odd is a session-fatal `StreamIdError`
with `GoawayReasons.PROTOCOL_ERROR`. -/
def validServerStreamId (s : Sess) (streamId : Nat) : Bool × Sess :=
  if streamId % 2 = 1 then
    (false, sessHandleError s (some .streamIdError) (some 1) none)
  else (true, s)

/-- common.py `_valid_client_stream_id` (lines 1275-1284): a
client-initiated id must be odd; even is a session-fatal `StreamIdError`
with `GoawayReasons.PROTOCOL_ERROR`. -/
def validClientStreamId (s : Sess) (streamId : Nat) : Bool × Sess :=
  if streamId % 2 = 0 then
    (false, sessHandleError s (some .streamIdError) (some 1) none)
  else (true, s)

/-- common.py `_valid_new_stream_id` (lines 1286-1325).  For a client
session the remote (pushed) parity check is `_valid_server_stream_id`; for
a server session it is `_valid_client_stream_id` (common.py lines
1036-1046).  Zero and lesser ids are session-fatal; an id equal to the
highest accepted one is a stream-scoped duplicate-SYN_STREAM error with
`StatusCodes.PROTOCOL_ERROR`. -/
def validNewStreamId (isClient : Bool) (s : Sess) (streamId : Nat) : Bool × Sess :=
  if streamId = 0 then
    (false, sessHandleError s (some .streamIdError) (some 1) none)
  else if (streamId : Int) < s.highestAccepted then
    (false, sessHandleError s (some .streamIdError) (some 1) none)
  else if (streamId : Int) = s.highestAccepted then
    (false, sessHandleError s (some .streamIdError) (some 1) (some streamId))
  else
    if isClient then validServerStreamId s streamId else validClientStreamId s streamId

/-- client.py `SpdyClientSession._init_pushed_exchg` (lines 154-165): build
the pushed exchange from the SYN_STREAM frame, record the frame's stream id
as the highest accepted one, and register the exchange. -/
def initPushedExchg (s : Sess) (streamId assocId priority : Nat) : Sess × Exch :=
  let ex : Exch := ⟨streamId, priority, assocId, true, .done, .waiting, []⟩
  ({ s with highestAccepted := (streamId : Int),
            exchanges := s.exchanges ++ [ex] }, ex)

/-- server.py `SpdyServerConnection._valid_new_stream_id` (lines 494-535):
the unfinished server-connection revision.  Same zero / lesser / duplicate
checks, but the final parity check rejects odd ids
(`if stream_id % 2 == 1`, line 530). -/
def serverConnValidNewStreamId (s : Sess) (streamId : Nat) : Bool × Sess :=
  if streamId = 0 then
    (false, sessHandleError s (some .streamIdError) (some 1) none)
  else if (streamId : Int) < s.highestAccepted then
    (false, sessHandleError s (some .streamIdError) (some 1) none)
  else if (streamId : Int) = s.highestAccepted then
    (false, sessHandleError s (some .streamIdError) (some 1) (some streamId))
  else if streamId % 2 = 1 then
    (false, sessHandleError s (some .streamIdError) (some 1) none)
  else (true, s)

end Thor

namespace Thor

/-! ### server.py `SpdyServerConnection` output scheduler (lines 186-468)

Eight FIFO queues, a single pending write tick (`thor.schedule(0, ...)`),
and the output-pause flag.  Frames are abstract tokens (their serialized
bytes are written in pop order).  An event loop tick can only fire when one
is scheduled; `_write_pending` tracks exactly that, so the `tick` event is a
no-op when `_write_pending` is false. -/

/-- An exchange as seen by the scheduler: activity plus its received pause
events. -/
structure SExch where
  active : Bool
  pauses : List Bool
  deriving DecidableEq

/-- `SpdyServerConnection` output state (server.py lines 196-208). -/
structure Sched where
  queues : Nat → List Nat
  writePending : Bool
  outputPaused : Bool
  exchanges : List SExch
  written : List Nat
  pauseEvents : List Bool

/-- The state after `__init__`: eight empty queues, nothing pending. -/
def initSched : Sched :=
  ⟨fun _ => [], false, false, [], [], []⟩

/-- server.py `_has_write_data` (lines 408-414): false while output is
paused, else true iff some priority queue is nonempty. -/
def hasWriteData (s : Sched) : Bool :=
  if s.outputPaused then false
  else ((List.range 8).any (fun p => s.queues p ≠ []))

/-- server.py `_schedule_write` (lines 430-433). -/
def scheduleWrite (s : Sched) : Sched :=
  if !s.writePending then { s with writePending := true } else s

/-- First nonempty queue by priority 0..7, with its head frame. -/
def popFirst (q : Nat → List Nat) : Option (Nat × Nat) :=
  ((List.range 8).filterMap (fun p => (q p).head?.map (fun f => (p, f)))).head?

/-- server.py `_write_frame_callback` (lines 416-428): clear the pending
flag, pop and write the head of the first nonempty queue, reschedule iff
`_has_write_data`. -/
def writeFrameCallback (s : Sched) : Sched :=
  let s0 := { s with writePending := false }
  let s1 := match popFirst s0.queues with
    | some (p, f) =>
      { s0 with queues := fun q => if q = p then (s0.queues p).tail else s0.queues q,
                written := s0.written ++ [f] }
    | none => s0
  if hasWriteData s1 then scheduleWrite s1 else s1

/-- server.py `_queue_frame` (lines 435-440): clears `_output_paused`,
appends the frame to its priority queue and schedules a write. -/
def queueFrame (s : Sched) (priority frame : Nat) : Sched :=
  let s1 := { s with outputPaused := false }
  let s2 := { s1 with queues := fun q =>
      if q = priority then s1.queues priority ++ [frame] else s1.queues q }
  scheduleWrite s2

/-- server.py `_handle_pause` (lines 458-468): emit the pause, propagate it
to every active exchange, record the flag, and reschedule writes on
resume. -/
def handlePause (s : Sched) (paused : Bool) : Sched :=
  let s1 := { s with pauseEvents := s.pauseEvents ++ [paused],
                     exchanges := s.exchanges.map (fun e : SExch =>
                       if e.active then { e with pauses := e.pauses ++ [paused] } else e) }
  let s2 := { s1 with outputPaused := paused }
  if !paused then scheduleWrite s2 else s2

/-- External events driving the scheduler. -/
inductive SchedEv
  | queue (priority frame : Nat)
  | pause (b : Bool)
  | tick
  deriving DecidableEq

/-- One event step; a tick fires only when a callback is scheduled. -/
def schedStep (s : Sched) (e : SchedEv) : Sched :=
  match e with
  | .queue p f => queueFrame s p f
  | .pause b => handlePause s b
  | .tick => if s.writePending then writeFrameCallback s else s

/-- Run a sequence of scheduler events. -/
def schedRun (s : Sched) (es : List SchedEv) : Sched :=
  es.foldl schedStep s

end Thor

namespace Thor

/-! ### Structured header blocks

The wire layout of a decompressed header block, used to quantify over
blocks in the header-integrity claims. -/

/-- Encoding of one `(name, value)` entry in the decompressed block. -/
def encodeEntry (n v : Bytes) : Bytes :=
  be32 n.length ++ n ++ be32 v.length ++ v

/-- Encoding of a list of entries. -/
def encodeEntries (l : List Hdr) : Bytes :=
  l.flatMap (fun nv => encodeEntry nv.1 nv.2)

/-- How the `_parse_hdrs` loop fails on an entry. -/
inductive DefectKind
  | hdr
  | exc
  deriving DecidableEq

/-- First failure the loop hits on one entry, mirroring the source check
order: name too long, empty name, not lower-case, NUL in name, duplicate
name, value too long, empty value (raises `IndexError` at `value[0]`),
NUL at the edges or doubled NUL in the value. -/
def entryDefect (names : List Bytes) (n v : Bytes) : Option DefectKind :=
  if 2 ^ 24 < n.length then some .hdr
  else if n.length = 0 then some .hdr
  else if pyLower n ≠ n then some .hdr
  else if 0 ∈ n then some .hdr
  else if n ∈ names then some .hdr
  else if 2 ^ 24 < v.length then some .hdr
  else if v = [] then some .exc
  else if v.headD 0 = 0 ∨ v.getLastD 0 = 0 ∨ hasDoubleNul v then some .hdr
  else none

/-- All entries pass every loop check, threading the seen names. -/
def validSeqB : List Bytes → List Hdr → Bool
  | _, [] => true
  | names, nv :: rest =>
    match entryDefect names nv.1 nv.2 with
    | none => validSeqB (nv.1 :: names) rest
    | some _ => false

/-- Names accumulated by the loop over a list of entries. -/
def namesAfter (names : List Bytes) (l : List Hdr) : List Bytes :=
  l.foldl (fun ns nv => nv.1 :: ns) names

/-- The `_parse_hdrs` loop at its canonical fuel. -/
def parseLoop (names : List Bytes) (acc : List Hdr) (data : Bytes) : LoopOut :=
  parseLoopF (data.length + 1) names acc data

end Thor

namespace Thor

/-- A DATA frame's constructor fields, for stating multi-frame input
properties. -/
structure DataF where
  flags : Nat
  streamId : Nat
  payload : Bytes
  deriving DecidableEq

/-- The frame passes the codec pre-checks: flags valid for DATA, payload
within the 24-bit length field, stream id within 31 bits. -/
def dfValid (f : DataF) : Bool :=
  (f.flags = 0 ∨ f.flags = 1) ∧ f.payload.length < 2 ^ 24 ∧ f.streamId < 2 ^ 31

/-- Serialized bytes of a DATA frame. -/
def dfBytes (f : DataF) : Bytes :=
  serializeDataFrame f.flags f.streamId f.payload

/-- The frame a DATA frame's bytes are parsed back into. -/
def dfEmitted (f : DataF) : EFrame :=
  .data f.flags (some f.streamId) f.payload

end Thor

namespace Thor

/-- The header-read assignment block of `_handle_input` (frames.py lines
660-669): control bit, version, type or stream id, flags and 24-bit
length. -/
def hdrSt (s : HState) (b0 b1 b2 b3 b4 b5 b6 b7 : Nat) : HState :=
  let d1 := beVal b0 b1 b2 b3
  if d1 / 2 ^ 31 % 2 = 1 then
    { s with flags := b4, version := d1 / 2 ^ 16 % 2 ^ 15,
             frameType := d1 % 2 ^ 16, streamId := none,
             frameLen := b5 * 2 ^ 16 + (b6 * 256 + b7), istate := .reading }
  else
    { s with flags := b4, frameType := 0, streamId := some (d1 % 2 ^ 31),
             frameLen := b5 * 2 ^ 16 + (b6 * 256 + b7), istate := .reading }

/-- The state after one complete frame body is processed and the parser
returns to `WAITING`. -/
def frameDone (dec : Bytes → Except Unit Bytes) (s : HState) (fd : Bytes) : HState :=
  { processFrame dec s fd with istate := .waiting }

end Thor

namespace Thor

/-! ## Theorems -/

/-! ### Order lemmas for the header sort -/

theorem strLt_cons (a b : Nat) (as_ bs : Bytes) :
    strLt (a :: as_) (b :: bs) =
      (if a < b then true else if a = b then strLt as_ bs else false) := rfl

theorem strLt_total (a b : Bytes) : strLt a b = true ∨ strLt b a = true ∨ a = b := by
  induction a generalizing b with
  | nil => cases b with
    | nil => right; right; rfl
    | cons x xs => left; rfl
  | cons x xs ih =>
    cases b with
    | nil => right; left; rfl
    | cons y ys =>
      rcases Nat.lt_trichotomy x y with h | h | h
      · left; simp [strLt_cons, h]
      · subst h
        rcases ih ys with h2 | h2 | h2
        · left; simp [strLt_cons, h2]
        · right; left; simp [strLt_cons, h2]
        · subst h2; right; right; rfl
      · right; left; simp [strLt_cons, h, Nat.lt_irrefl, Nat.ne_of_gt h]

theorem strLt_trans {a b c : Bytes} (h1 : strLt a b = true) (h2 : strLt b c = true) :
    strLt a c = true := by
  induction a generalizing b c with
  | nil =>
    cases b with
    | nil => simp [strLt] at h1
    | cons y ys => cases c with
      | nil => simp [strLt] at h2
      | cons z zs => rfl
  | cons x xs ih =>
    cases b with
    | nil => simp [strLt] at h1
    | cons y ys =>
      cases c with
      | nil => simp [strLt] at h2
      | cons z zs =>
        rw [strLt_cons] at h1 h2 ⊢
        by_cases hxy : x < y
        · simp only [hxy, if_true] at h1
          by_cases hyz : y < z
          · simp [Nat.lt_trans hxy hyz]
          · simp only [hyz, if_false] at h2
            by_cases hyz2 : y = z
            · subst hyz2; simp [hxy]
            · simp [hyz2] at h2
        · simp only [hxy, if_false] at h1
          by_cases hxy2 : x = y
          · subst hxy2
            simp only [if_pos rfl] at h1
            by_cases hxz : x < z
            · simp [hxz]
            · simp only [hxz, if_false] at h2 ⊢
              by_cases hxz2 : x = z
              · simp only [hxz2, if_pos rfl] at h2 ⊢
                exact ih h1 h2
              · simp [hxz2] at h2
          · simp [hxy2] at h1

theorem strLt_irrefl (a : Bytes) : strLt a a = false := by
  induction a with
  | nil => rfl
  | cons x xs ih => simp [strLt_cons, ih]

theorem pairLe_iff (x y : Hdr) :
    pairLe x y = true ↔
      strLt x.1 y.1 = true ∨ (x.1 = y.1 ∧ (strLt x.2 y.2 = true ∨ x.2 = y.2)) := by
  unfold pairLe
  by_cases h1 : strLt x.1 y.1
  · simp [h1]
  · simp only [h1, if_false, Bool.false_eq_true, false_or]
    by_cases h2 : x.1 = y.1
    · simp only [h2, if_pos rfl, true_and]
      by_cases h3 : strLt x.2 y.2
      · simp [h3]
      · simp [h3]
    · simp [h2]

theorem pairLe_total (x y : Hdr) : pairLe x y = true ∨ pairLe y x = true := by
  rcases strLt_total x.1 y.1 with h | h | h
  · left; rw [pairLe_iff]; exact Or.inl h
  · right; rw [pairLe_iff]; exact Or.inl h
  · rcases strLt_total x.2 y.2 with h2 | h2 | h2
    · left; rw [pairLe_iff]; exact Or.inr ⟨h, Or.inl h2⟩
    · right; rw [pairLe_iff]; exact Or.inr ⟨h.symm, Or.inl h2⟩
    · left; rw [pairLe_iff]; exact Or.inr ⟨h, Or.inr h2⟩

theorem pairLe_trans {x y z : Hdr} (h1 : pairLe x y = true) (h2 : pairLe y z = true) :
    pairLe x z = true := by
  rw [pairLe_iff] at h1 h2 ⊢
  rcases h1 with h1 | ⟨e1, v1⟩
  · rcases h2 with h2 | ⟨e2, _⟩
    · exact Or.inl (strLt_trans h1 h2)
    · exact Or.inl (e2 ▸ h1)
  · rcases h2 with h2 | ⟨e2, v2⟩
    · exact Or.inl (e1 ▸ h2)
    · refine Or.inr ⟨e1.trans e2, ?_⟩
      rcases v1 with v1 | v1
      · rcases v2 with v2 | v2
        · exact Or.inl (strLt_trans v1 v2)
        · exact Or.inl (v2 ▸ v1)
      · rcases v2 with v2 | v2
        · exact Or.inl (v1 ▸ v2)
        · exact Or.inr (v1.trans v2)

theorem mem_insertLe {x z : Hdr} {l : List Hdr} (h : z ∈ insertLe x l) :
    z = x ∨ z ∈ l := by
  induction l with
  | nil => simp [insertLe] at h; exact Or.inl h
  | cons y ys ih =>
    rw [insertLe] at h
    by_cases hxy : pairLe x y
    · simp only [hxy, if_true, List.mem_cons] at h
      rcases h with h | h | h
      · exact Or.inl h
      · exact Or.inr (by simp [h])
      · exact Or.inr (List.mem_cons_of_mem _ h)
    · simp only [hxy, Bool.false_eq_true, if_false, List.mem_cons] at h
      rcases h with h | h
      · exact Or.inr (by simp [h])
      · rcases ih h with h2 | h2
        · exact Or.inl h2
        · exact Or.inr (List.mem_cons_of_mem _ h2)

theorem perm_insertLe (x : Hdr) (l : List Hdr) : (insertLe x l).Perm (x :: l) := by
  induction l with
  | nil => simp [insertLe]
  | cons y ys ih =>
    rw [insertLe]
    by_cases hxy : pairLe x y
    · simp [hxy]
    · simp only [hxy, if_false]
      exact (List.Perm.cons y ih).trans (List.Perm.swap x y ys)

theorem pairwise_insertLe {x : Hdr} {l : List Hdr}
    (h : l.Pairwise (fun a b => pairLe a b = true)) :
    (insertLe x l).Pairwise (fun a b => pairLe a b = true) := by
  induction l with
  | nil => simp [insertLe]
  | cons y ys ih =>
    rw [insertLe]
    rw [List.pairwise_cons] at h
    obtain ⟨hy, hys⟩ := h
    by_cases hxy : pairLe x y
    · simp only [hxy, if_true]
      refine List.Pairwise.cons ?_ (List.Pairwise.cons hy hys)
      intro z hz
      rcases List.mem_cons.mp hz with h2 | h2
      · exact h2 ▸ hxy
      · exact pairLe_trans hxy (hy _ h2)
    · simp only [hxy, if_false]
      refine List.Pairwise.cons ?_ (ih hys)
      intro z hz
      rcases mem_insertLe hz with h2 | h2
      · subst h2
        rcases pairLe_total y z with h3 | h3
        · exact h3
        · exact absurd h3 (by simpa using hxy)
      · exact hy _ h2

theorem pySort_perm (l : List Hdr) : (pySort l).Perm l := by
  induction l with
  | nil => rfl
  | cons x xs ih =>
    have : pySort (x :: xs) = insertLe x (pySort xs) := rfl
    rw [this]
    exact (perm_insertLe x (pySort xs)).trans (List.Perm.cons x ih)

theorem pySort_pairwise (l : List Hdr) :
    (pySort l).Pairwise (fun a b => pairLe a b = true) := by
  induction l with
  | nil => exact List.Pairwise.nil
  | cons x xs ih => exact pairwise_insertLe ih

end Thor

namespace Thor

/-- C10: for every SYN_STREAM, SYN_REPLY or HEADERS frame, `serialize`
sorts the frame's own `hdr_tuples` list in place, so afterwards the frame's
`hdr_tuples` field is the lexicographically sorted permutation of the
original list, while every other field of the frame is unchanged. -/
theorem c10_serialize_sorts_hdr_tuples :
    ∀ (compress : Bytes → Bytes) (f : SynStreamF) (g : SynReplyF) (h : HeadersF),
      ((serializeSynStream compress f).2.hdrTuples = pySort f.hdrTuples ∧
        ((serializeSynStream compress f).2.hdrTuples).Perm f.hdrTuples ∧
        ((serializeSynStream compress f).2.hdrTuples).Pairwise (fun a b => pairLe a b = true) ∧
        (serializeSynStream compress f).2.flags = f.flags ∧
        (serializeSynStream compress f).2.streamId = f.streamId ∧
        (serializeSynStream compress f).2.priority = f.priority ∧
        (serializeSynStream compress f).2.streamAssocId = f.streamAssocId ∧
        (serializeSynStream compress f).2.slot = f.slot) ∧
      ((serializeSynReply compress g).2.hdrTuples = pySort g.hdrTuples ∧
        ((serializeSynReply compress g).2.hdrTuples).Perm g.hdrTuples ∧
        ((serializeSynReply compress g).2.hdrTuples).Pairwise (fun a b => pairLe a b = true) ∧
        (serializeSynReply compress g).2.flags = g.flags ∧
        (serializeSynReply compress g).2.streamId = g.streamId) ∧
      ((serializeHeadersFrame compress h).2.hdrTuples = pySort h.hdrTuples ∧
        ((serializeHeadersFrame compress h).2.hdrTuples).Perm h.hdrTuples ∧
        ((serializeHeadersFrame compress h).2.hdrTuples).Pairwise (fun a b => pairLe a b = true) ∧
        (serializeHeadersFrame compress h).2.flags = h.flags ∧
        (serializeHeadersFrame compress h).2.streamId = h.streamId) := by
  intro compress f g h
  refine ⟨⟨rfl, pySort_perm _, pySort_pairwise _, rfl, rfl, rfl, rfl, rfl⟩,
    ⟨rfl, pySort_perm _, pySort_pairwise _, rfl, rfl⟩,
    ⟨rfl, pySort_perm _, pySort_pairwise _, rfl, rfl⟩⟩

/-- C7: `_next_created_stream_id` returns `n + 2`, but because
`MAX_STREAM_ID = 1 << 31 - 1` parses as `1 << 30`, it raises already for
ids that still fit the 31-bit stream-id space: with highest created id
`2^30 - 1` the next id `2^30 + 1` is at most `2^31 - 1`, yet the code
fails; the normal path (5 to 7) still returns `n + 2`. -/
theorem c7_next_stream_id_limit_bug :
    (nextCreatedStreamId (2 ^ 30 - 1)).1 = .error () ∧
    2 ^ 30 - 1 + 2 ≤ 2 ^ 31 - 1 ∧
    (nextCreatedStreamId 5).1 = .ok 7 ∧
    maxStreamId = 2 ^ 30 := by
  refine ⟨rfl, by norm_num, rfl, rfl⟩

/-- C4: divergence of the two parity checks at highest accepted id 0.  The
canonical `common.SpdySession` server role accepts the odd client-initiated
id 1 and rejects the even id 2 session-fatally, while the unfinished
`server.SpdyServerConnection._valid_new_stream_id` accepts the even id 2
and rejects the odd id 1 session-fatally, contradicting the claimed parity
invariant. -/
theorem c4_parity_check_divergence :
    validNewStreamId false ⟨[], 0, false, true, [], []⟩ 1 =
      (true, ⟨[], 0, false, true, [], []⟩) ∧
    (validNewStreamId false ⟨[], 0, false, true, [], []⟩ 2).1 = false ∧
    (validNewStreamId false ⟨[], 0, false, true, [], []⟩ 2).2.tcpConn = false ∧
    .errorEv .streamIdError ∈ (validNewStreamId false ⟨[], 0, false, true, [], []⟩ 2).2.events ∧
    serverConnValidNewStreamId ⟨[], 0, false, true, [], []⟩ 2 =
      (true, ⟨[], 0, false, true, [], []⟩) ∧
    (serverConnValidNewStreamId ⟨[], 0, false, true, [], []⟩ 1).1 = false ∧
    (serverConnValidNewStreamId ⟨[], 0, false, true, [], []⟩ 1).2.tcpConn = false ∧
    .errorEv .streamIdError ∈ (serverConnValidNewStreamId ⟨[], 0, false, true, [], []⟩ 1).2.events := by
  decide

/-- C5 counterexample: a decompressed block declaring count 0 while one
valid name/value pair is present is a count mismatch, yet `_parse_hdrs`
returns the empty header list with no error at all (the `num_hdrs == 0`
early return, frames.py line 768), instead of the claimed stream-scoped
`HeaderError` with no header list. -/
theorem c5_count_zero_counterexample :
    parseHdrs (fun b => .ok b) (be32 0 ++ be32 1 ++ [97] ++ be32 1 ++ [98]) 1 =
      (some [], []) := by
  decide

/-- C8 counterexample: enqueue one frame, receive `pause(True)`, then let
the already scheduled tick fire: the frame is written to the transport
although the transport signalled pause and never resumed — the claim that
no frame is written between `pause(True)` and `pause(False)` fails. -/
theorem c8_write_while_paused_counterexample :
    (schedRun initSched [.queue 0 42, .pause true, .tick]).written = [42] ∧
    (schedRun initSched [.queue 0 42, .pause true, .tick]).outputPaused = true := by
  exact ⟨rfl, rfl⟩

/-- C1: the frame codec round-trip fails for SYN_STREAM.  Serializing the
frame with flags 0, stream id 1, header tuples `[("a", "b")]`, priority 2,
stream_assoc_id 3, slot 0 and feeding the bytes back into `_handle_input`
emits exactly one frame, but the positional constructor call
`SynSteamFrame(flags, stream_id, stream_assoc_id, priority, slot, hdr_tuples)`
(frames.py lines 694-700) against the signature
`(flags, stream_id, hdr_tuples, priority, stream_assoc_id, slot)`
(frames.py lines 424-425) leaves the emitted frame with `hdr_tuples` set to
the wire integer 3, `stream_assoc_id` set to the wire slot 0 and `slot` set
to the parsed header list — not equal to the original frame. -/
theorem c1_synstream_roundtrip_bug :
    (handleInput (fun b => .ok b) initHState
        (serializeSynStream id ⟨0, 1, [([97], [98])], 2, 3, 0⟩).1).emitted =
      [.synStream 0 1 (.int 3) 2 0 (.hdrs [([97], [98])])] ∧
    (handleInput (fun b => .ok b) initHState
        (serializeSynStream id ⟨0, 1, [([97], [98])], 2, 3, 0⟩).1).errors = [] ∧
    (0 : Nat) ≠ 3 ∧
    PyV.int 3 ≠ PyV.hdrs [([97], [98])] := by
  refine ⟨by decide, by decide, by decide, by decide⟩

end Thor

namespace Thor

/-- Effects of `SpdySession.close` with a reason on an active session. -/
theorem sessClose_reason (s : Sess) (h : s.tcpConn = true) (r : Nat) :
    sessClose s (some r) =
      { exchanges := s.exchanges.map (fun ex =>
          if ex.isActive then
            { ex with reqState := .done, resState := .done,
                      delivered := ex.delivered ++ [.connClosedError] }
          else ex),
        highestAccepted := s.highestAccepted,
        sentGoaway := true,
        tcpConn := false,
        queued := s.queued ++ [(0, .goawayF (max s.highestAccepted 0) r)],
        events := s.events ++ [.closeEv] } := by
  unfold sessClose closeActiveExchanges
  rw [h]
  rfl

/-- Effects of a session-scoped error (`_handle_error` with stream id None
followed by `close(status)`): error and close events, GOAWAY queued with
`max(highest_accepted, 0)` and the status, transport dropped, every active
exchange closed with the error delivered. -/
theorem sessionFatal_effects (s : Sess) (e : ErrClass) (r : Nat) (h : s.tcpConn = true) :
    (sessHandleError s (some e) (some r) none).events =
      s.events ++ [.errorEv e, .closeEv] ∧
    (sessHandleError s (some e) (some r) none).queued =
      s.queued ++ [(0, .goawayF (max s.highestAccepted 0) r)] ∧
    (sessHandleError s (some e) (some r) none).tcpConn = false ∧
    (sessHandleError s (some e) (some r) none).sentGoaway = true ∧
    (sessHandleError s (some e) (some r) none).exchanges =
      s.exchanges.map (fun ex =>
        if ex.isActive then
          { ex with reqState := .done, resState := .done,
                    delivered := ex.delivered ++ [e] }
        else ex) := by
  have hclosed : ∀ ex : Exch,
      (fun ex : Exch => if ex.isActive then
        { ex with reqState := .done, resState := .done,
                  delivered := ex.delivered ++ [ErrClass.connClosedError] } else ex)
      ((fun ex : Exch => if ex.isActive then
        { ex with reqState := .done, resState := .done,
                  delivered := ex.delivered ++ [e] } else ex) ex) =
      (fun ex : Exch => if ex.isActive then
        { ex with reqState := .done, resState := .done,
                  delivered := ex.delivered ++ [e] } else ex) ex := by
    intro ex
    by_cases hex : ex.isActive
    · simp only [hex, if_true]
      have hcl : Exch.isActive
          { ex with reqState := .done, resState := .done,
                    delivered := ex.delivered ++ [e] } = false := by
        simp [Exch.isActive]
      simp [hcl]
    · simp only [Bool.not_eq_true] at hex
      simp [hex]
  have hred : sessHandleError s (some e) (some r) none =
      sessClose (closeActiveExchanges
        { s with events := s.events ++ [.errorEv e] } (some e)) (some r) := rfl
  rw [hred, sessClose_reason (closeActiveExchanges
    { s with events := s.events ++ [.errorEv e] } (some e)) (by exact h) r]
  refine ⟨by simp [closeActiveExchanges], by simp [closeActiveExchanges], rfl, rfl, ?_⟩
  simp only [closeActiveExchanges]
  show List.map _ (List.map _ s.exchanges) = _
  rw [List.map_map]
  exact List.map_congr_left (fun ex _ => hclosed ex)

/-- Effects of a stream-scoped error (`_handle_error` with a stream id):
session-level fields are untouched; when the id resolves to an exchange,
the error is delivered to it, it is closed, and `RST_STREAM(sid, status)`
is queued. -/
theorem streamScoped_effects (s : Sess) (e : ErrClass) (st sid : Nat) :
    (sessHandleError s (some e) (some st) (some sid)).tcpConn = s.tcpConn ∧
    (sessHandleError s (some e) (some st) (some sid)).sentGoaway = s.sentGoaway ∧
    (sessHandleError s (some e) (some st) (some sid)).highestAccepted = s.highestAccepted ∧
    (sessHandleError s (some e) (some st) (some sid)).events = s.events ∧
    (s.exchanges.any (fun ex => ex.streamId = sid) = true →
      (0, .rstF sid st) ∈ (sessHandleError s (some e) (some st) (some sid)).queued ∧
      (sessHandleError s (some e) (some st) (some sid)).exchanges =
        (s.exchanges.map (fun ex =>
          if ex.streamId = sid then
            { ex with reqState := .done, resState := .done,
                      delivered := ex.delivered ++ [e] }
          else ex))) := by
  have hred : sessHandleError s (some e) (some st) (some sid) =
      (if s.exchanges.any (fun ex => ex.streamId = sid) then
        closeExchange
          { s with exchanges := s.exchanges.map (fun ex =>
              if ex.streamId = sid then { ex with delivered := ex.delivered ++ [e] } else ex) }
          sid (some st)
      else s) := rfl
  rw [hred]
  by_cases hmem : s.exchanges.any (fun ex => ex.streamId = sid) = true
  · rw [if_pos hmem]
    refine ⟨rfl, rfl, rfl, rfl, fun _ => ⟨?_, ?_⟩⟩
    · unfold closeExchange
      simp
    · unfold closeExchange
      show List.map _ (List.map _ s.exchanges) = _
      rw [List.map_map]
      refine List.map_congr_left (fun ex _ => ?_)
      by_cases hx : ex.streamId = sid
      · simp [hx]
      · simp [hx]
  · rw [if_neg hmem]
    exact ⟨rfl, rfl, rfl, rfl, fun hc => absurd hc hmem⟩

/-- C2: a decompression failure while decoding a header block is reported
with no stream id (session scope) as a `ParsingError` with
`GoawayReasons.INTERNAL_ERROR`, and `_parse_hdrs` yields no header list;
routing such a session-scoped error through `SpdySession._handle_error`
emits the error, closes every active exchange delivering the error to it,
queues `GOAWAY(max(highest_accepted, 0), INTERNAL_ERROR)`, drops the
transport and emits `close` — no stream-scoped recovery. -/
theorem c2_decompression_failure_session_fatal :
    (∀ (dec : Bytes → Except Unit Bytes) (data : Bytes) (sid : Nat) (e : Unit),
      data ≠ [] → dec data = .error e →
      parseHdrs dec data sid = (none, [⟨some .parsingError, 2, none, true⟩])) ∧
    (∀ s : Sess, s.tcpConn = true →
      (sessHandleError s (some .parsingError) (some 2) none).events =
        s.events ++ [.errorEv .parsingError, .closeEv] ∧
      (sessHandleError s (some .parsingError) (some 2) none).queued =
        s.queued ++ [(0, .goawayF (max s.highestAccepted 0) 2)] ∧
      (sessHandleError s (some .parsingError) (some 2) none).tcpConn = false ∧
      (sessHandleError s (some .parsingError) (some 2) none).sentGoaway = true ∧
      (sessHandleError s (some .parsingError) (some 2) none).exchanges =
        s.exchanges.map (fun ex =>
          if ex.isActive then
            { ex with reqState := .done, resState := .done,
                      delivered := ex.delivered ++ [.parsingError] }
          else ex)) := by
  constructor
  · intro dec data sid e hne hdec
    simp [parseHdrs, hne, hdec]
  · intro s hs
    exact sessionFatal_effects s .parsingError 2 hs

/-- C2 witness at a concrete decompressor failure and a concrete session
with one active exchange. -/
theorem c2_witness :
    parseHdrs (fun _ => .error ()) [1] 5 = (none, [⟨some .parsingError, 2, none, true⟩]) ∧
    (sessHandleError (⟨[⟨3, 0, 0, false, .started, .waiting, []⟩], 3, false, true, [], []⟩ : Sess)
        (some .parsingError) (some 2) none).tcpConn = false ∧
    (sessHandleError (⟨[⟨3, 0, 0, false, .started, .waiting, []⟩], 3, false, true, [], []⟩ : Sess)
        (some .parsingError) (some 2) none).queued = [(0, .goawayF 3 2)] := by
  refine ⟨c2_decompression_failure_session_fatal.1 (fun _ => .error ()) [1] 5 () (by decide) rfl,
    (c2_decompression_failure_session_fatal.2 _ rfl).2.2.1, ?_⟩
  have h := (c2_decompression_failure_session_fatal.2
    (⟨[⟨3, 0, 0, false, .started, .waiting, []⟩], 3, false, true, [], []⟩ : Sess) rfl).2.1
  simpa using h

end Thor

namespace Thor

/-- C3: stream-id acceptance monotonicity of `_valid_new_stream_id`.  With
highest accepted id `n`: id 0 or an id below `n` is rejected with a
session-fatal `StreamIdError` (transport closed, error emitted, GOAWAY
with `PROTOCOL_ERROR` queued); an id equal to `n` is rejected with a
stream-scoped duplicate-SYN_STREAM `StreamIdError`
(`StatusCodes.PROTOCOL_ERROR` for that stream id, session fields
untouched, `RST_STREAM` queued when the id resolves); an id above `n` with
the correct remote parity is accepted unchanged, and initializing the
pushed exchange records it as the new highest accepted id. -/
theorem c3_stream_id_monotonicity :
    ∀ (isClient : Bool) (s : Sess) (m : Nat),
      ((m = 0 ∨ (m : Int) < s.highestAccepted) →
        (validNewStreamId isClient s m).1 = false ∧
        (s.tcpConn = true →
          (validNewStreamId isClient s m).2.tcpConn = false ∧
          .errorEv .streamIdError ∈ (validNewStreamId isClient s m).2.events ∧
          (0, .goawayF (max s.highestAccepted 0) 1) ∈ (validNewStreamId isClient s m).2.queued)) ∧
      (m ≠ 0 → (m : Int) = s.highestAccepted →
        (validNewStreamId isClient s m).1 = false ∧
        (validNewStreamId isClient s m).2.tcpConn = s.tcpConn ∧
        (validNewStreamId isClient s m).2.sentGoaway = s.sentGoaway ∧
        (validNewStreamId isClient s m).2.highestAccepted = s.highestAccepted ∧
        (validNewStreamId isClient s m).2.events = s.events ∧
        (s.exchanges.any (fun ex => ex.streamId = m) = true →
          (0, .rstF m 1) ∈ (validNewStreamId isClient s m).2.queued)) ∧
      (m ≠ 0 → s.highestAccepted < (m : Int) → m % 2 = (if isClient then 0 else 1) →
        validNewStreamId isClient s m = (true, s)) ∧
      (∀ assoc pri,
        (initPushedExchg s m assoc pri).1.highestAccepted = (m : Int) ∧
        (initPushedExchg s m assoc pri).2 ∈ (initPushedExchg s m assoc pri).1.exchanges ∧
        (initPushedExchg s m assoc pri).2 = ⟨m, pri, assoc, true, .done, .waiting, []⟩) := by
  intro isClient s m
  refine ⟨?_, ?_, ?_, ?_⟩
  · intro hm
    have hval : validNewStreamId isClient s m =
        (false, sessHandleError s (some .streamIdError) (some 1) none) := by
      by_cases hm0 : m = 0
      · simp [validNewStreamId, hm0]
      · have hlt : (m : Int) < s.highestAccepted := hm.resolve_left hm0
        simp [validNewStreamId, hm0, hlt]
    rw [hval]
    refine ⟨rfl, fun htcp => ?_⟩
    obtain ⟨hev, hq, htc, -, -⟩ := sessionFatal_effects s .streamIdError 1 htcp
    exact ⟨htc, by rw [hev]; simp, by rw [hq]; simp⟩
  · intro hm0 heq
    have hval : validNewStreamId isClient s m =
        (false, sessHandleError s (some .streamIdError) (some 1) (some m)) := by
      have hnlt : ¬ ((m : Int) < s.highestAccepted) := by rw [← heq]; exact lt_irrefl _
      simp [validNewStreamId, hm0, hnlt, heq]
    rw [hval]
    obtain ⟨h1, h2, h3, h4, h5⟩ := streamScoped_effects s .streamIdError 1 m
    exact ⟨rfl, h1, h2, h3, h4, fun hmem => (h5 hmem).1⟩
  · intro hm0 hgt hpar
    have hnlt : ¬ ((m : Int) < s.highestAccepted) := not_lt_of_gt hgt
    have hne : ¬ ((m : Int) = s.highestAccepted) := ne_of_gt hgt
    cases isClient with
    | true =>
      have : m % 2 ≠ 1 := by simp at hpar; omega
      simp [validNewStreamId, hm0, hnlt, hne, validServerStreamId, this]
    | false =>
      have : m % 2 ≠ 0 := by simp at hpar; omega
      simp [validNewStreamId, hm0, hnlt, hne, validClientStreamId, this]
  · intro assoc pri
    exact ⟨rfl, by simp [initPushedExchg], rfl⟩

/-- C3 witness: a client session with highest accepted id 4 rejects id 2
session-fatally and id 4 stream-scoped only, accepts id 6, and the pushed
exchange for id 6 raises the highest accepted id to 6. -/
theorem c3_witness :
    (validNewStreamId true ⟨[⟨4, 0, 0, false, .started, .waiting, []⟩], 4, false, true, [], []⟩ 2).1
        = false ∧
    (validNewStreamId true ⟨[⟨4, 0, 0, false, .started, .waiting, []⟩], 4, false, true, [], []⟩ 2).2.tcpConn
        = false ∧
    (validNewStreamId true ⟨[⟨4, 0, 0, false, .started, .waiting, []⟩], 4, false, true, [], []⟩ 4).1
        = false ∧
    (validNewStreamId true ⟨[⟨4, 0, 0, false, .started, .waiting, []⟩], 4, false, true, [], []⟩ 4).2.tcpConn
        = true ∧
    validNewStreamId true ⟨[⟨4, 0, 0, false, .started, .waiting, []⟩], 4, false, true, [], []⟩ 6
        = (true, ⟨[⟨4, 0, 0, false, .started, .waiting, []⟩], 4, false, true, [], []⟩) ∧
    (initPushedExchg ⟨[⟨4, 0, 0, false, .started, .waiting, []⟩], 4, false, true, [], []⟩ 6 1 0).1.highestAccepted
        = 6 := by
  refine ⟨((c3_stream_id_monotonicity true _ 2).1 (Or.inr (by decide))).1,
    ((((c3_stream_id_monotonicity true _ 2).1 (Or.inr (by decide))).2 rfl)).1,
    ((c3_stream_id_monotonicity true _ 4).2.1 (by decide) (by decide)).1,
    ((c3_stream_id_monotonicity true _ 4).2.1 (by decide) (by decide)).2.1,
    (c3_stream_id_monotonicity true _ 6).2.2.1 (by decide) (by decide) (by decide),
    ((c3_stream_id_monotonicity true _ 6).2.2.2 1 0).1⟩

end Thor

namespace Thor

/-! ### Header-block parsing lemmas -/

theorem parseLoopF_irrel :
    ∀ (k k' : Nat) (names : List Bytes) (acc : List Hdr) (data : Bytes),
      data.length < k → data.length < k' →
      parseLoopF k names acc data = parseLoopF k' names acc data := by
  intro k
  induction k with
  | zero => intro k' names acc data hk _; omega
  | succ k ih =>
    intro k' names acc data hk hk'
    cases k' with
    | zero => omega
    | succ k' =>
      match data with
      | [] => rfl
      | [b0] => rfl
      | [b0, b1] => rfl
      | [b0, b1, b2] => rfl
      | b0 :: b1 :: b2 :: b3 :: r1 =>
        simp only [parseLoopF]
        by_cases h1 : 2 ^ 24 < beVal b0 b1 b2 b3
        · simp only [if_pos h1]
        · simp only [if_neg h1]
          by_cases h2 : beVal b0 b1 b2 b3 = 0
          · simp only [if_pos h2]
          · simp only [if_neg h2]
            by_cases h3 : pyLower (r1.take (beVal b0 b1 b2 b3)) ≠ r1.take (beVal b0 b1 b2 b3)
            · simp only [if_pos h3]
            · simp only [if_neg h3]
              by_cases h4 : 0 ∈ r1.take (beVal b0 b1 b2 b3)
              · simp only [if_pos h4]
              · simp only [if_neg h4]
                by_cases h5 : r1.take (beVal b0 b1 b2 b3) ∈ names
                · simp only [if_pos h5]
                · simp only [if_neg h5]
                  rcases hdrop : r1.drop (beVal b0 b1 b2 b3) with - | ⟨c0, r⟩
                  · rfl
                  · rcases r with - | ⟨c1, r⟩
                    · rfl
                    · rcases r with - | ⟨c2, r⟩
                      · rfl
                      · rcases r with - | ⟨c3, r2⟩
                        · rfl
                        · have e1 : r1.length - beVal b0 b1 b2 b3 = r2.length + 4 := by
                            have := List.length_drop (beVal b0 b1 b2 b3) r1
                            rw [hdrop] at this
                            simpa using this.symm
                          by_cases h6 : 2 ^ 24 < beVal c0 c1 c2 c3
                          · simp only [if_pos h6]
                          · simp only [if_neg h6]
                            rcases htake : r2.take (beVal c0 c1 c2 c3) with - | ⟨hh, tt⟩
                            · rfl
                            · by_cases h7 : hh = 0 ∨ (hh :: tt).getLastD 0 = 0 ∨
                                  hasDoubleNul (hh :: tt)
                              · simp only [if_pos h7]
                              · simp only [if_neg h7]
                                apply ih
                                · have := List.length_drop (beVal c0 c1 c2 c3) r2
                                  simp only [List.length_cons] at hk
                                  omega
                                · have := List.length_drop (beVal c0 c1 c2 c3) r2
                                  simp only [List.length_cons] at hk'
                                  omega

end Thor

namespace Thor

theorem beVal_be32 (x : Nat) (h : x < 2 ^ 32) :
    beVal (x / 2 ^ 24 % 256) (x / 2 ^ 16 % 256) (x / 2 ^ 8 % 256) (x % 256) = x := by
  unfold beVal
  omega

theorem entryDefect_none_iff (names : List Bytes) (n v : Bytes) :
    entryDefect names n v = none ↔
      (¬ 2 ^ 24 < n.length ∧ n.length ≠ 0 ∧ pyLower n = n ∧ 0 ∉ n ∧ n ∉ names ∧
        ¬ 2 ^ 24 < v.length ∧ v ≠ [] ∧
        ¬ (v.headD 0 = 0 ∨ v.getLastD 0 = 0 ∨ hasDoubleNul v)) := by
  unfold entryDefect
  split_ifs with h1 h2 h3 h4 h5 h6 h7 h8 <;> simp_all

theorem take_len_app {A : Type} (l r : List A) : (l ++ r).take l.length = l := by
  simp

theorem drop_len_app {A : Type} (l r : List A) : (l ++ r).drop l.length = r := by
  simp

theorem parseLoop_valid_step (names : List Bytes) (acc : List Hdr) (n v : Bytes)
    (suffix : Bytes) (h : entryDefect names n v = none) :
    parseLoop names acc (encodeEntry n v ++ suffix) =
      parseLoop (n :: names) (acc ++ [(n, v)]) suffix := by
  obtain ⟨h1, h2, h3, h4, h5, h6, h7, h8⟩ := (entryDefect_none_iff names n v).mp h
  have hn32 : n.length < 2 ^ 32 := by omega
  have hv32 : v.length < 2 ^ 32 := by omega
  have hshape : encodeEntry n v ++ suffix =
      n.length / 2 ^ 24 % 256 :: n.length / 2 ^ 16 % 256 :: n.length / 2 ^ 8 % 256 ::
        n.length % 256 ::
        (n ++ (v.length / 2 ^ 24 % 256 :: v.length / 2 ^ 16 % 256 :: v.length / 2 ^ 8 % 256 ::
          v.length % 256 :: (v ++ suffix))) := by
    simp [encodeEntry, be32]
  rw [parseLoop, hshape]
  simp only [parseLoopF, beVal_be32 n.length hn32]
  rw [if_neg h1, if_neg h2, take_len_app, drop_len_app]
  rw [if_neg (by simp [h3] : ¬ pyLower n ≠ n), if_neg h4, if_neg h5]
  dsimp only
  rw [beVal_be32 v.length hv32]
  rw [if_neg h6, take_len_app]
  match v, h7 with
  | hv :: vt, _ =>
    dsimp only
    rw [if_neg (by simpa using h8)]
    rw [drop_len_app]
    apply parseLoopF_irrel
    · simp
      omega
    · omega

end Thor

namespace Thor

theorem parseLoop_defect_step (names : List Bytes) (acc : List Hdr) (n v : Bytes)
    (suffix : Bytes) (k : DefectKind) (hn32 : n.length < 2 ^ 32) (hv32 : v.length < 2 ^ 32)
    (h : entryDefect names n v = some k) :
    parseLoop names acc (encodeEntry n v ++ suffix) =
      (match k with | .hdr => .hdrFail | .exc => .exc) := by
  have hshape : encodeEntry n v ++ suffix =
      n.length / 2 ^ 24 % 256 :: n.length / 2 ^ 16 % 256 :: n.length / 2 ^ 8 % 256 ::
        n.length % 256 ::
        (n ++ (v.length / 2 ^ 24 % 256 :: v.length / 2 ^ 16 % 256 :: v.length / 2 ^ 8 % 256 ::
          v.length % 256 :: (v ++ suffix))) := by
    simp [encodeEntry, be32]
  rw [parseLoop, hshape]
  simp only [parseLoopF, beVal_be32 n.length hn32]
  unfold entryDefect at h
  split_ifs at h with h1 h2 h3 h4 h5 h6 h7 h8
  · obtain rfl := Option.some.inj h
    rw [if_pos h1]
  · obtain rfl := Option.some.inj h
    rw [if_neg h1, if_pos h2]
  · obtain rfl := Option.some.inj h
    rw [if_neg h1, if_neg h2, take_len_app, if_pos h3]
  · obtain rfl := Option.some.inj h
    rw [if_neg h1, if_neg h2, take_len_app,
      if_neg (by simpa using h3), if_pos h4]
  · obtain rfl := Option.some.inj h
    rw [if_neg h1, if_neg h2, take_len_app,
      if_neg (by simpa using h3), if_neg h4, if_pos h5]
  · obtain rfl := Option.some.inj h
    rw [if_neg h1, if_neg h2, take_len_app,
      if_neg (by simpa using h3), if_neg h4, if_neg h5, drop_len_app]
    dsimp only
    rw [beVal_be32 v.length hv32, if_pos h6]
  · obtain rfl := Option.some.inj h
    subst h7
    rw [if_neg h1, if_neg h2, take_len_app,
      if_neg (by simpa using h3), if_neg h4, if_neg h5, drop_len_app]
    dsimp only
    rw [beVal_be32 _ hv32, if_neg h6]
    simp
  · obtain rfl := Option.some.inj h
    rw [if_neg h1, if_neg h2, take_len_app,
      if_neg (by simpa using h3), if_neg h4, if_neg h5, drop_len_app]
    dsimp only
    rw [beVal_be32 v.length hv32, if_neg h6, take_len_app]
    match v, h7 with
    | hv :: vt, _ =>
      dsimp only
      rw [if_pos (by simpa using h8)]

theorem parseLoop_validSeq :
    ∀ (entries : List Hdr) (names : List Bytes) (acc : List Hdr) (suffix : Bytes),
      validSeqB names entries = true →
      parseLoop names acc (encodeEntries entries ++ suffix) =
        parseLoop (namesAfter names entries) (acc ++ entries) suffix := by
  intro entries
  induction entries with
  | nil =>
    intro names acc suffix _
    simp [encodeEntries, namesAfter]
  | cons e rest ih =>
    intro names acc suffix hv
    obtain ⟨n, v⟩ := e
    have hdef : entryDefect names n v = none := by
      unfold validSeqB at hv
      cases hc : entryDefect names n v with
      | none => rfl
      | some k => rw [hc] at hv; simp at hv
    have hrest : validSeqB (n :: names) rest = true := by
      unfold validSeqB at hv
      rw [hdef] at hv
      exact hv
    have hsplit : encodeEntries ((n, v) :: rest) ++ suffix =
        encodeEntry n v ++ (encodeEntries rest ++ suffix) := by
      simp [encodeEntries]
    rw [hsplit, parseLoop_valid_step _ _ _ _ _ hdef, ih _ _ _ hrest]
    have h2 : (acc ++ [(n, v)]) ++ rest = acc ++ ((n, v) :: rest) := by simp
    rw [h2]
    rfl

end Thor

namespace Thor

theorem parseHdrsBody_valid (count : Nat) (entries : List Hdr) (hc : count < 2 ^ 32)
    (hc0 : count ≠ 0) (hseq : validSeqB [] entries = true) :
    parseHdrsBody (be32 count ++ encodeEntries entries) =
      if count ≠ entries.length then .hdrFail else .done (expandDups entries) := by
  have hshape : be32 count ++ encodeEntries entries =
      count / 2 ^ 24 % 256 :: count / 2 ^ 16 % 256 :: count / 2 ^ 8 % 256 :: count % 256 ::
        encodeEntries entries := by
    simp [be32]
  rw [hshape]
  unfold parseHdrsBody
  dsimp only
  rw [beVal_be32 count hc, if_neg hc0]
  have hwrap : parseLoopF ((encodeEntries entries).length + 1) [] [] (encodeEntries entries) =
      parseLoop [] [] (encodeEntries entries) := rfl
  rw [hwrap]
  have happ : encodeEntries entries = encodeEntries entries ++ [] := by simp
  rw [happ, parseLoop_validSeq entries [] [] [] hseq]
  rfl

theorem parseHdrsBody_defect (count : Nat) (good : List Hdr) (n v : Bytes) (suffix : Bytes)
    (k : DefectKind) (hc : count < 2 ^ 32) (hc0 : count ≠ 0)
    (hgood : validSeqB [] good = true) (hn32 : n.length < 2 ^ 32) (hv32 : v.length < 2 ^ 32)
    (hdef : entryDefect (namesAfter [] good) n v = some k) :
    parseHdrsBody (be32 count ++ (encodeEntries good ++ (encodeEntry n v ++ suffix))) =
      (match k with | .hdr => .hdrFail | .exc => .exc) := by
  have hshape : be32 count ++ (encodeEntries good ++ (encodeEntry n v ++ suffix)) =
      count / 2 ^ 24 % 256 :: count / 2 ^ 16 % 256 :: count / 2 ^ 8 % 256 :: count % 256 ::
        (encodeEntries good ++ (encodeEntry n v ++ suffix)) := by
    simp [be32]
  rw [hshape]
  unfold parseHdrsBody
  dsimp only
  rw [beVal_be32 count hc, if_neg hc0]
  have hwrap : parseLoopF ((encodeEntries good ++ (encodeEntry n v ++ suffix)).length + 1)
      [] [] (encodeEntries good ++ (encodeEntry n v ++ suffix)) =
      parseLoop [] [] (encodeEntries good ++ (encodeEntry n v ++ suffix)) := rfl
  rw [hwrap, parseLoop_validSeq good [] [] _ hgood,
    parseLoop_defect_step _ _ _ _ _ k hn32 hv32 hdef]
  cases k <;> rfl

/-- C5 (amended): header-block integrity is stream-scoped, provided the
declared count is nonzero and the offending defect is the first anomaly the
loop meets (no empty value and no truncation precedes it).  (A) a block of
loop-valid entries whose nonzero declared count differs from the number of
pairs present, and (B) a block whose first defective entry fails a
HeaderError-class check (name too long / empty / not lower-case / NUL in
name / duplicate name / value too long / NUL at the edges or doubled NUL in
the value), are both rejected with a `HeaderError` carrying the frame's
stream id (`StatusCodes.PROTOCOL_ERROR`, not fatal) and no header list.  A
declared count of zero instead returns an empty list with no error
(see the counterexample), and an empty value hits the session-fatal blanket
handler (see C9). -/
theorem c5_header_block_integrity_amended :
    ∀ (dec : Bytes → Except Unit Bytes) (data : Bytes) (sid count : Nat)
      (entries : List Hdr) (n v : Bytes) (suffix : Bytes),
      data ≠ [] → count < 2 ^ 32 → count ≠ 0 →
      ((dec data = .ok (be32 count ++ encodeEntries entries)) →
        validSeqB [] entries = true → count ≠ entries.length →
        parseHdrs dec data sid = (none, [⟨some .headerError, 1, some sid, false⟩])) ∧
      ((dec data = .ok (be32 count ++ (encodeEntries entries ++ (encodeEntry n v ++ suffix)))) →
        validSeqB [] entries = true →
        n.length < 2 ^ 32 → v.length < 2 ^ 32 →
        entryDefect (namesAfter [] entries) n v = some .hdr →
        parseHdrs dec data sid = (none, [⟨some .headerError, 1, some sid, false⟩])) := by
  intro dec data sid count entries n v suffix hne hc hc0
  constructor
  · intro hdec hseq hmis
    unfold parseHdrs
    rw [if_neg (by simpa using hne), hdec]
    dsimp only
    rw [parseHdrsBody_valid count entries hc hc0 hseq, if_pos hmis]
  · intro hdec hseq hn32 hv32 hdef
    unfold parseHdrs
    rw [if_neg (by simpa using hne), hdec]
    dsimp only
    rw [parseHdrsBody_defect count entries n v suffix .hdr hc hc0 hseq hn32 hv32 hdef]

/-- C5 witness: the spec's own example — a block declaring two headers with
only the single pair ("a", "b") present is rejected with a stream-scoped
`HeaderError` for stream id 1 and no header list; likewise a block whose
second entry duplicates the name "a". -/
theorem c5_witness :
    parseHdrs (fun b => .ok b) (be32 2 ++ encodeEntries [([97], [98])]) 1 =
      (none, [⟨some .headerError, 1, some 1, false⟩]) ∧
    parseHdrs (fun b => .ok b)
        (be32 2 ++ (encodeEntries [([97], [98])] ++ (encodeEntry [97] [99] ++ []))) 1 =
      (none, [⟨some .headerError, 1, some 1, false⟩]) := by
  refine ⟨(c5_header_block_integrity_amended (fun b => .ok b)
      (be32 2 ++ encodeEntries [([97], [98])]) 1 2 [([97], [98])] [97] [99] []
      (by decide) (by decide) (by decide)).1 rfl (by decide) (by decide),
    (c5_header_block_integrity_amended (fun b => .ok b)
      (be32 2 ++ (encodeEntries [([97], [98])] ++ (encodeEntry [97] [99] ++ []))) 1 2
      [([97], [98])] [97] [99] []
      (by decide) (by decide) (by decide)).2 rfl (by decide) (by decide) (by decide)
      (by decide)⟩

end Thor

namespace Thor

/-- C9: a well-formed block layout in which some value field has declared
length 0 — an empty header value whose entry passes every earlier check —
makes `value[0]` raise on the empty string; the blanket handler reports a
session-fatal `ParsingError` with `GoawayReasons.INTERNAL_ERROR` and no
stream id, and `_parse_hdrs` returns no header list and no stream-scoped
`HeaderError`.  Routed through `SpdySession._handle_error`, the session is
torn down: transport closed, close emitted, GOAWAY queued. -/
theorem c9_empty_value_session_fatal :
    ∀ (dec : Bytes → Except Unit Bytes) (data : Bytes) (sid count : Nat)
      (entries : List Hdr) (n : Bytes) (suffix : Bytes),
      data ≠ [] → count < 2 ^ 32 → count ≠ 0 →
      dec data = .ok (be32 count ++ (encodeEntries entries ++ (encodeEntry n [] ++ suffix))) →
      validSeqB [] entries = true → n.length < 2 ^ 32 →
      entryDefect (namesAfter [] entries) n [] = some .exc →
      (parseHdrs dec data sid = (none, [⟨some .parsingError, 2, none, true⟩]) ∧
        ∀ s : Sess, s.tcpConn = true →
          (sessHandleError s (some .parsingError) (some 2) none).tcpConn = false ∧
          .closeEv ∈ (sessHandleError s (some .parsingError) (some 2) none).events ∧
          (0, .goawayF (max s.highestAccepted 0) 2) ∈
            (sessHandleError s (some .parsingError) (some 2) none).queued) := by
  intro dec data sid count entries n suffix hne hc hc0 hdec hseq hn32 hdef
  constructor
  · unfold parseHdrs
    rw [if_neg (by simpa using hne), hdec]
    dsimp only
    rw [parseHdrsBody_defect count entries n [] suffix .exc hc hc0 hseq hn32 (by simp) hdef]
  · intro s hs
    obtain ⟨hev, hq, htc, -, -⟩ := sessionFatal_effects s .parsingError 2 hs
    exact ⟨htc, by rw [hev]; simp, by rw [hq]; simp⟩

/-- C9 witness: block with count 1 and the single entry ("a", "") — the
empty value is session-fatal, and a concrete active session is torn down. -/
theorem c9_witness :
    parseHdrs (fun b => .ok b)
        (be32 1 ++ (encodeEntries [] ++ (encodeEntry [97] [] ++ []))) 7 =
      (none, [⟨some .parsingError, 2, none, true⟩]) ∧
    (sessHandleError (⟨[⟨5, 0, 0, false, .started, .started, []⟩], 5, false, true, [], []⟩ : Sess)
        (some .parsingError) (some 2) none).tcpConn = false := by
  refine ⟨(c9_empty_value_session_fatal (fun b => .ok b)
      (be32 1 ++ (encodeEntries [] ++ (encodeEntry [97] [] ++ []))) 7 1 [] [97] []
      (by decide) (by decide) (by decide) rfl (by decide) (by decide) (by decide)).1,
    ((c9_empty_value_session_fatal (fun b => .ok b)
      (be32 1 ++ (encodeEntries [] ++ (encodeEntry [97] [] ++ []))) 7 1 [] [97] []
      (by decide) (by decide) (by decide) rfl (by decide) (by decide) (by decide)).2
      _ rfl).1⟩

end Thor

namespace Thor

theorem scheduleWrite_written (s : Sched) : (scheduleWrite s).written = s.written := by
  unfold scheduleWrite
  split <;> rfl

theorem scheduleWrite_queues (s : Sched) : (scheduleWrite s).queues = s.queues := by
  unfold scheduleWrite
  split <;> rfl

theorem scheduleWrite_outputPaused (s : Sched) :
    (scheduleWrite s).outputPaused = s.outputPaused := by
  unfold scheduleWrite
  split <;> rfl

theorem scheduleWrite_exchanges (s : Sched) : (scheduleWrite s).exchanges = s.exchanges := by
  unfold scheduleWrite
  split <;> rfl

/-- C8 (amended): while the transport is paused, `_has_write_data` is false
(so a finishing tick schedules no successor and queued frames accumulate),
and with no tick pending no tick can fire, so nothing is written;
`_handle_pause` records the flag and propagates the pause event to every
active exchange without writing; `pause(False)` reschedules writing, and a
pending tick writes the head of the first nonempty priority queue.
(As the counterexample shows, a tick already pending at `pause(True)` still
writes one frame, and `_queue_frame` clears the paused flag, so the
original claim that no frame is written between `pause(True)` and
`pause(False)` does not hold.) -/
theorem c8_backpressure_amended :
    (∀ s : Sched, s.outputPaused = true → hasWriteData s = false) ∧
    (∀ s : Sched, s.writePending = false → schedStep s .tick = s) ∧
    (∀ (s : Sched) (p f : Nat), (schedStep s (.queue p f)).queues p = s.queues p ++ [f]) ∧
    (∀ (s : Sched) (b : Bool),
      (schedStep s (.pause b)).outputPaused = b ∧
      (schedStep s (.pause b)).exchanges = s.exchanges.map (fun e : SExch =>
        if e.active then { e with pauses := e.pauses ++ [b] } else e) ∧
      (schedStep s (.pause b)).written = s.written) ∧
    (∀ s : Sched, (schedStep s (.pause false)).writePending = true) ∧
    (∀ (s : Sched) (p f : Nat), s.writePending = true → popFirst s.queues = some (p, f) →
      (schedStep s .tick).written = s.written ++ [f]) := by
  refine ⟨?_, ?_, ?_, ?_, ?_, ?_⟩
  · intro s h
    simp [hasWriteData, h]
  · intro s h
    simp [schedStep, h]
  · intro s p f
    have hq : schedStep s (.queue p f) = scheduleWrite
        { s with outputPaused := false,
                 queues := fun q => if q = p then s.queues p ++ [f] else s.queues q } := rfl
    rw [hq, scheduleWrite_queues]
    simp
  · intro s b
    cases b
    · have hq : schedStep s (.pause false) = scheduleWrite
          { s with pauseEvents := s.pauseEvents ++ [false],
                   exchanges := s.exchanges.map (fun e : SExch =>
                     if e.active then { e with pauses := e.pauses ++ [false] } else e),
                   outputPaused := false } := rfl
      rw [hq, scheduleWrite_outputPaused, scheduleWrite_exchanges, scheduleWrite_written]
      exact ⟨rfl, rfl, rfl⟩
    · exact ⟨rfl, rfl, rfl⟩
  · intro s
    have hq : schedStep s (.pause false) = scheduleWrite
        { s with pauseEvents := s.pauseEvents ++ [false],
                 exchanges := s.exchanges.map (fun e : SExch =>
                   if e.active then { e with pauses := e.pauses ++ [false] } else e),
                 outputPaused := false } := rfl
    rw [hq]
    unfold scheduleWrite
    split
    · rfl
    · rename_i hsp
      simpa using hsp
  · intro s p f hpend hpop
    have hq : schedStep s .tick = (if s.writePending then writeFrameCallback s else s) := rfl
    rw [hq, if_pos hpend]
    unfold writeFrameCallback
    dsimp only
    rw [hpop]
    dsimp only
    split
    · rw [scheduleWrite_written]
    · rfl

/-- C8 witness: concrete instances — a paused scheduler reports no write
data and an unscheduled tick is a no-op; enqueueing appends; a pause event
reaches the active exchange; resume schedules; a pending tick writes the
head frame. -/
theorem c8_witness :
    hasWriteData { initSched with outputPaused := true } = false ∧
    schedStep { initSched with outputPaused := true } .tick =
      { initSched with outputPaused := true } ∧
    (schedStep initSched (.queue 0 42)).queues 0 = initSched.queues 0 ++ [42] ∧
    (schedStep { initSched with exchanges := [⟨true, []⟩] } (.pause true)).exchanges =
      [⟨true, [true]⟩] ∧
    (schedStep initSched (.pause false)).writePending = true ∧
    (schedStep ⟨fun q => if q = 2 then [9] else [], true, false, [], [], []⟩ .tick).written =
      ([] : List Nat) ++ [9] := by
  refine ⟨c8_backpressure_amended.1 _ rfl, c8_backpressure_amended.2.1 _ rfl,
    c8_backpressure_amended.2.2.1 initSched 0 42, ?_, c8_backpressure_amended.2.2.2.2.1 initSched,
    c8_backpressure_amended.2.2.2.2.2 _ 2 9 rfl rfl⟩
  have h := (c8_backpressure_amended.2.2.2.1
    { initSched with exchanges := [⟨true, []⟩] } true).2.1
  simpa using h

end Thor

namespace Thor

theorem frameDone_istate (dec : Bytes → Except Unit Bytes) (s : HState) (fd : Bytes) :
    (frameDone dec s fd).istate = .waiting := rfl

theorem hdrSt_istate (s : HState) (b0 b1 b2 b3 b4 b5 b6 b7 : Nat) :
    (hdrSt s b0 b1 b2 b3 b4 b5 b6 b7).istate = .reading := by
  unfold hdrSt
  dsimp only
  split <;> rfl

theorem aux_waiting_short (dec : Bytes → Except Unit Bytes) (k : Nat) (s : HState)
    (data : Bytes) (hst : s.istate = .waiting) (hlen : data.length < 8) :
    handleInputAux dec (k + 1) s data = { s with buffer := data } := by
  match data, hlen with
  | [], _ => simp only [handleInputAux]; rw [hst]
  | [b0], _ => simp only [handleInputAux]; rw [hst]
  | [b0, b1], _ => simp only [handleInputAux]; rw [hst]
  | [b0, b1, b2], _ => simp only [handleInputAux]; rw [hst]
  | [b0, b1, b2, b3], _ => simp only [handleInputAux]; rw [hst]
  | [b0, b1, b2, b3, b4], _ => simp only [handleInputAux]; rw [hst]
  | [b0, b1, b2, b3, b4, b5], _ => simp only [handleInputAux]; rw [hst]
  | [b0, b1, b2, b3, b4, b5, b6], _ => simp only [handleInputAux]; rw [hst]
  | b0 :: b1 :: b2 :: b3 :: b4 :: b5 :: b6 :: b7 :: rest, h => simp at h; omega

theorem aux_waiting_step (dec : Bytes → Except Unit Bytes) (k : Nat) (s : HState)
    (b0 b1 b2 b3 b4 b5 b6 b7 : Nat) (rest : Bytes) (hst : s.istate = .waiting) :
    handleInputAux dec (k + 1) s (b0 :: b1 :: b2 :: b3 :: b4 :: b5 :: b6 :: b7 :: rest) =
      handleInputAux dec k (hdrSt s b0 b1 b2 b3 b4 b5 b6 b7) rest := by
  simp only [handleInputAux]
  rw [hst]
  rfl

theorem aux_reading_frame (dec : Bytes → Except Unit Bytes) (k : Nat) (s : HState)
    (data : Bytes) (hst : s.istate = .reading) (hlen : s.frameLen ≤ data.length) :
    handleInputAux dec (k + 1) s data =
      (if data.drop s.frameLen = [] then frameDone dec s (data.take s.frameLen)
       else handleInputAux dec k (frameDone dec s (data.take s.frameLen))
         (data.drop s.frameLen)) := by
  simp only [handleInputAux]
  rw [hst]
  dsimp only
  rw [if_pos hlen]
  rfl

theorem aux_reading_stall (dec : Bytes → Except Unit Bytes) (k : Nat) (s : HState)
    (data : Bytes) (hst : s.istate = .reading) (hlen : ¬ s.frameLen ≤ data.length) :
    handleInputAux dec (k + 1) s data = { s with buffer := data } := by
  simp only [handleInputAux]
  rw [hst]
  dsimp only
  rw [if_neg hlen]


theorem hdrSt_buffer (s : HState) (b0 b1 b2 b3 b4 b5 b6 b7 : Nat) :
    (hdrSt s b0 b1 b2 b3 b4 b5 b6 b7).buffer = s.buffer := by
  unfold hdrSt
  dsimp only
  split <;> rfl

theorem checkType_buffer (s : HState) : (checkType s).2.buffer = s.buffer := by
  unfold checkType
  split <;> rfl

theorem checkVersion_buffer (s : HState) (fd : Bytes) :
    (checkVersion s fd).2.buffer = s.buffer := by
  unfold checkVersion
  repeat' split
  all_goals rfl

theorem checkFlags_buffer (s : HState) : (checkFlags s).2.buffer = s.buffer := by
  unfold checkFlags
  split <;> rfl

theorem checkSize_buffer (s : HState) (fd : Bytes) :
    (checkSize s fd).2.buffer = s.buffer := by
  unfold checkSize
  repeat' split
  all_goals rfl

theorem parseBody_buffer (dec : Bytes → Except Unit Bytes) (s : HState) (fd : Bytes) :
    (parseBody dec s fd).buffer = s.buffer := by
  unfold parseBody
  repeat' first
  | rfl
  | split
  | dsimp only

theorem processFrame_buffer (dec : Bytes → Except Unit Bytes) (s : HState) (fd : Bytes) :
    (processFrame dec s fd).buffer = s.buffer := by
  unfold processFrame
  dsimp only
  split
  · exact checkType_buffer s
  · split
    · rw [checkVersion_buffer, checkType_buffer]
    · split
      · rw [checkFlags_buffer, checkVersion_buffer, checkType_buffer]
      · split
        · rw [checkSize_buffer, checkFlags_buffer, checkVersion_buffer, checkType_buffer]
        · rw [parseBody_buffer, checkSize_buffer, checkFlags_buffer, checkVersion_buffer,
            checkType_buffer]

theorem frameDone_buffer (dec : Bytes → Except Unit Bytes) (s : HState) (fd : Bytes) :
    (frameDone dec s fd).buffer = s.buffer := by
  show (processFrame dec s fd).buffer = s.buffer
  exact processFrame_buffer dec s fd

theorem handleInputAux_irrel : ∀ (N k k' : Nat) (dec : Bytes → Except Unit Bytes)
    (s : HState) (data : Bytes),
    2 * data.length + (if s.istate = IState.reading then 3 else 2) < N →
    2 * data.length + (if s.istate = IState.reading then 3 else 2) ≤ k →
    2 * data.length + (if s.istate = IState.reading then 3 else 2) ≤ k' →
    handleInputAux dec k s data = handleInputAux dec k' s data := by
  intro N
  induction N with
  | zero => intro k k' dec s data hN _ _; omega
  | succ N ih =>
    intro k k' dec s data hN hk hk'
    have hif : 2 ≤ (if s.istate = IState.reading then 3 else 2) := by split <;> omega
    obtain ⟨k1, rfl⟩ : ∃ k1, k = k1 + 1 := ⟨k - 1, by omega⟩
    obtain ⟨k2, rfl⟩ : ∃ k2, k' = k2 + 1 := ⟨k' - 1, by omega⟩
    cases hst : s.istate
    case waiting =>
      rw [hst] at hN hk hk'
      simp at hN hk hk'
      by_cases hlen8 : data.length < 8
      · rw [aux_waiting_short dec k1 s data hst hlen8,
          aux_waiting_short dec k2 s data hst hlen8]
      · obtain ⟨b0, b1, b2, b3, b4, b5, b6, b7, rest, rfl⟩ :
            ∃ b0 b1 b2 b3 b4 b5 b6 b7 rest,
              data = b0 :: b1 :: b2 :: b3 :: b4 :: b5 :: b6 :: b7 :: rest := by
          rcases data with _ | ⟨b0, _ | ⟨b1, _ | ⟨b2, _ | ⟨b3, _ | ⟨b4, _ | ⟨b5, _ |
            ⟨b6, _ | ⟨b7, rest⟩⟩⟩⟩⟩⟩⟩⟩
          all_goals first
            | exact ⟨_, _, _, _, _, _, _, _, _, rfl⟩
            | exact absurd (by simp) hlen8
        rw [aux_waiting_step dec k1 s b0 b1 b2 b3 b4 b5 b6 b7 rest hst,
          aux_waiting_step dec k2 s b0 b1 b2 b3 b4 b5 b6 b7 rest hst]
        refine ih k1 k2 dec _ rest ?_ ?_ ?_
        · simp [hdrSt_istate] at hN ⊢; omega
        · simp [hdrSt_istate] at hk ⊢; omega
        · simp [hdrSt_istate] at hk' ⊢; omega
    case reading =>
      rw [hst] at hN hk hk'
      simp at hN hk hk'
      by_cases hlen : s.frameLen ≤ data.length
      · rw [aux_reading_frame dec k1 s data hst hlen,
          aux_reading_frame dec k2 s data hst hlen]
        by_cases hrest : data.drop s.frameLen = []
        · rw [if_pos hrest, if_pos hrest]
        · rw [if_neg hrest, if_neg hrest]
          refine ih k1 k2 dec _ _ ?_ ?_ ?_
          · simp [frameDone_istate, List.length_drop]; omega
          · simp [frameDone_istate, List.length_drop]; omega
          · simp [frameDone_istate, List.length_drop]; omega
      · rw [aux_reading_stall dec k1 s data hst hlen,
          aux_reading_stall dec k2 s data hst hlen]

theorem handleInput_eq_aux (dec : Bytes → Except Unit Bytes) (s : HState) (d : Bytes)
    (k : Nat) (hbuf : s.buffer = [])
    (hk : 2 * d.length + (if s.istate = IState.reading then 3 else 2) ≤ k) :
    handleInput dec s d = handleInputAux dec k s d := by
  have hif : (if s.istate = IState.reading then 3 else 2) ≤ 3 := by split <;> omega
  have hs : ({ s with buffer := [] } : HState) = s := by rw [← hbuf]
  unfold handleInput
  rw [hbuf, hs]
  simp only [List.nil_append, List.length_nil, Nat.zero_add]
  exact handleInputAux_irrel (2 * d.length + 4 + k) (2 * d.length + 3) k dec s d
    (by omega) (by omega) hk

theorem handleInput_absorb (dec : Bytes → Except Unit Bytes) (s : HState) (d : Bytes) :
    handleInput dec s d = handleInput dec { s with buffer := [] } (s.buffer ++ d) := by
  show handleInputAux dec (2 * (s.buffer.length + d.length) + 3) { s with buffer := [] }
      (s.buffer ++ d) =
    handleInputAux dec (2 * ((0 : Nat) + (s.buffer ++ d).length) + 3) { s with buffer := [] }
      (s.buffer ++ d)
  have hlen : (s.buffer ++ d).length = s.buffer.length + d.length := List.length_append _ _
  have hif : (if ({ s with buffer := [] } : HState).istate = IState.reading then 3 else 2)
      ≤ 3 := by split <;> omega
  exact handleInputAux_irrel (2 * (s.buffer ++ d).length + 4)
    (2 * (s.buffer.length + d.length) + 3) (2 * (0 + (s.buffer ++ d).length) + 3)
    dec _ _ (by omega) (by omega) (by omega)

theorem handleInput_nil_waiting (dec : Bytes → Except Unit Bytes) (t : HState)
    (hbuf : t.buffer = []) (hst : t.istate = IState.waiting) :
    handleInput dec t [] = t := by
  have hs : ({ t with buffer := [] } : HState) = t := by rw [← hbuf]
  show handleInputAux dec (2 * (t.buffer.length + ([] : Bytes).length) + 3)
      { t with buffer := [] } (t.buffer ++ []) = t
  rw [hbuf, hs]
  simp only [List.append_nil, List.length_nil, Nat.add_zero, Nat.mul_zero]
  rw [aux_waiting_short dec 2 t [] hst (by simp), hs]

theorem handleInput_concat_core : ∀ (N k : Nat) (dec : Bytes → Except Unit Bytes)
    (s : HState) (data b : Bytes), s.buffer = [] →
    2 * data.length + (if s.istate = IState.reading then 3 else 2) < N →
    2 * data.length + (if s.istate = IState.reading then 3 else 2) ≤ k →
    handleInput dec (handleInputAux dec k s data) b = handleInput dec s (data ++ b) := by
  intro N
  induction N with
  | zero => intro k dec s data b _ hN _; omega
  | succ N ih =>
    intro k dec s data b hbuf hN hk
    have hif : 2 ≤ (if s.istate = IState.reading then 3 else 2) := by split <;> omega
    obtain ⟨k1, rfl⟩ : ∃ k1, k = k1 + 1 := ⟨k - 1, by omega⟩
    have hs : ({ s with buffer := [] } : HState) = s := by rw [← hbuf]
    cases hst : s.istate
    case waiting =>
      rw [hst] at hN hk
      simp at hN hk
      by_cases hlen8 : data.length < 8
      · rw [aux_waiting_short dec k1 s data hst hlen8]
        rw [handleInput_absorb dec { s with buffer := data } b]
        show handleInput dec { s with buffer := [] } (data ++ b) = handleInput dec s (data ++ b)
        rw [hs]
      · obtain ⟨b0, b1, b2, b3, b4, b5, b6, b7, rest, rfl⟩ :
            ∃ b0 b1 b2 b3 b4 b5 b6 b7 rest,
              data = b0 :: b1 :: b2 :: b3 :: b4 :: b5 :: b6 :: b7 :: rest := by
          rcases data with _ | ⟨b0, _ | ⟨b1, _ | ⟨b2, _ | ⟨b3, _ | ⟨b4, _ | ⟨b5, _ |
            ⟨b6, _ | ⟨b7, rest⟩⟩⟩⟩⟩⟩⟩⟩
          all_goals first
            | exact ⟨_, _, _, _, _, _, _, _, _, rfl⟩
            | exact absurd (by simp) hlen8
        simp only [List.length_cons] at hN hk
        rw [aux_waiting_step dec k1 s b0 b1 b2 b3 b4 b5 b6 b7 rest hst]
        have hb1 : (hdrSt s b0 b1 b2 b3 b4 b5 b6 b7).buffer = [] := by
          rw [hdrSt_buffer]; exact hbuf
        rw [ih k1 dec (hdrSt s b0 b1 b2 b3 b4 b5 b6 b7) rest b hb1
          (by simp [hdrSt_istate]; omega) (by simp [hdrSt_istate]; omega)]
        simp only [List.cons_append]
        have hc : (if (hdrSt s b0 b1 b2 b3 b4 b5 b6 b7).istate = IState.reading
            then 3 else 2) = 3 := by rw [hdrSt_istate]; decide
        rw [handleInput_eq_aux dec s
          (b0 :: b1 :: b2 :: b3 :: b4 :: b5 :: b6 :: b7 :: (rest ++ b))
          (2 * (rest ++ b).length + 17 + 1) hbuf
          (by rw [hst]; simp [List.length_append]; omega)]
        rw [aux_waiting_step dec (2 * (rest ++ b).length + 17) s
          b0 b1 b2 b3 b4 b5 b6 b7 (rest ++ b) hst]
        rw [handleInput_eq_aux dec (hdrSt s b0 b1 b2 b3 b4 b5 b6 b7) (rest ++ b)
          (2 * (rest ++ b).length + 17) hb1 (by rw [hc]; omega)]
    case reading =>
      rw [hst] at hN hk
      simp at hN hk
      by_cases hlen : s.frameLen ≤ data.length
      · rw [aux_reading_frame dec k1 s data hst hlen]
        have hfb : (frameDone dec s (data.take s.frameLen)).buffer = [] := by
          rw [frameDone_buffer]; exact hbuf
        have hc : (if (frameDone dec s (data.take s.frameLen)).istate = IState.reading
            then 3 else 2) = 2 := by rw [frameDone_istate]; decide
        have hlen2 : s.frameLen ≤ (data ++ b).length := by
          rw [List.length_append]; omega
        by_cases hrest : data.drop s.frameLen = []
        · rw [if_pos hrest]
          have hfl : s.frameLen = data.length := by
            have h := congrArg List.length hrest
            simp only [List.length_drop, List.length_nil] at h
            omega
          rw [handleInput_eq_aux dec s (data ++ b) (2 * (data ++ b).length + 2 + 1) hbuf
            (by rw [hst]; simp)]
          rw [aux_reading_frame dec (2 * (data ++ b).length + 2) s (data ++ b) hst hlen2]
          rw [hfl, take_len_app, drop_len_app, List.take_length]
          by_cases hb0 : b = []
          · rw [if_pos hb0, hb0]
            exact handleInput_nil_waiting dec _ (by rw [frameDone_buffer]; exact hbuf)
              (frameDone_istate dec s data)
          · rw [if_neg hb0]
            refine handleInput_eq_aux dec _ b (2 * (data ++ b).length + 2)
              (by rw [frameDone_buffer]; exact hbuf) ?_
            rw [frameDone_istate,
              show (if IState.waiting = IState.reading then 3 else 2) = 2 from by decide]
            simp only [List.length_append]
            omega
        · rw [if_neg hrest]
          rw [ih k1 dec (frameDone dec s (data.take s.frameLen)) (data.drop s.frameLen) b hfb
            (by rw [hc]; simp only [List.length_drop]; omega)
            (by rw [hc]; simp only [List.length_drop]; omega)]
          rw [handleInput_eq_aux dec s (data ++ b) (2 * (data ++ b).length + 2 + 1) hbuf
            (by rw [hst]; simp)]
          rw [aux_reading_frame dec (2 * (data ++ b).length + 2) s (data ++ b) hst hlen2]
          rw [List.take_append_of_le_length hlen, List.drop_append_of_le_length hlen]
          rw [if_neg (by simp [hrest])]
          refine handleInput_eq_aux dec _ (data.drop s.frameLen ++ b)
            (2 * (data ++ b).length + 2) hfb ?_
          rw [hc]
          simp only [List.length_append, List.length_drop]
          omega
      · rw [aux_reading_stall dec k1 s data hst hlen]
        rw [handleInput_absorb dec { s with buffer := data } b]
        show handleInput dec { s with buffer := [] } (data ++ b) = handleInput dec s (data ++ b)
        rw [hs]

theorem handleInput_concat (dec : Bytes → Except Unit Bytes) (s : HState) (a b : Bytes) :
    handleInput dec (handleInput dec s a) b = handleInput dec s (a ++ b) := by
  rw [handleInput_absorb dec s a, handleInput_absorb dec s (a ++ b), ← List.append_assoc]
  have h0 : ({ s with buffer := [] } : HState).buffer = [] := rfl
  have hif : (if ({ s with buffer := [] } : HState).istate = IState.reading then 3 else 2)
      ≤ 3 := by split <;> omega
  have hK : 2 * (s.buffer ++ a).length +
      (if ({ s with buffer := [] } : HState).istate = IState.reading then 3 else 2) ≤
      2 * (s.buffer ++ a).length + 3 := by omega
  rw [handleInput_eq_aux dec { s with buffer := [] } (s.buffer ++ a)
    (2 * (s.buffer ++ a).length + 3) h0 hK]
  exact handleInput_concat_core (2 * (s.buffer ++ a).length + 4)
    (2 * (s.buffer ++ a).length + 3) dec _ _ b h0 (by omega) hK

theorem processFrame_data (dec : Bytes → Except Unit Bytes) (s : HState) (fd : Bytes)
    (ht : s.frameType = 0) (hf : s.flags = 0 ∨ s.flags = 1) :
    processFrame dec s fd =
      { s with emitted := s.emitted ++ [.data s.flags s.streamId fd] } := by
  have h1 : checkType s = (true, s) := by
    unfold checkType
    rw [if_pos (show s.frameType ∈ frameTypesValues by rw [ht]; decide)]
  have h2 : checkVersion s fd = (true, s) := by
    unfold checkVersion
    rw [if_pos ht]
  have h3 : checkFlags s = (true, s) := by
    unfold checkFlags
    refine if_pos ?_
    rcases hf with h | h <;> rw [h, ht] <;> decide
  have h4 : checkSize s fd = (true, s) := by
    unfold checkSize
    rw [if_pos ht]
  have h5 : parseBody dec s fd = emitFrame s (.data s.flags s.streamId fd) := by
    unfold parseBody
    rw [if_pos ht]
  unfold processFrame
  rw [h1]
  dsimp only
  rw [h2]
  dsimp only
  rw [h3]
  dsimp only
  rw [h4]
  dsimp only
  rw [h5]
  rfl

theorem handleInput_df (dec : Bytes → Except Unit Bytes) (s : HState) (f : DataF)
    (hbuf : s.buffer = []) (hst : s.istate = IState.waiting) (hv : dfValid f = true) :
    handleInput dec s (dfBytes f) =
      { s with flags := f.flags, frameType := 0, streamId := some f.streamId,
               frameLen := f.payload.length, istate := IState.waiting,
               emitted := s.emitted ++ [dfEmitted f] } := by
  have hv' : (f.flags = 0 ∨ f.flags = 1) ∧ f.payload.length < 2 ^ 24 ∧
      f.streamId < 2 ^ 31 := by
    simpa [dfValid] using hv
  obtain ⟨hfl, hlen, hsid⟩ := hv'
  have hm : streamMask &&& f.streamId = f.streamId := by
    rw [show streamMask = 2 ^ 31 - 1 from by norm_num [streamMask], Nat.and_comm,
      Nat.and_pow_two_sub_one_eq_mod, Nat.mod_eq_of_lt hsid]
  have hdata : dfBytes f =
      f.streamId / 2 ^ 24 % 256 :: f.streamId / 2 ^ 16 % 256 :: f.streamId / 2 ^ 8 % 256 :: f.streamId % 256 ::
      (f.flags * 2 ^ 24 + f.payload.length) / 2 ^ 24 % 256 ::
      (f.flags * 2 ^ 24 + f.payload.length) / 2 ^ 16 % 256 ::
      (f.flags * 2 ^ 24 + f.payload.length) / 2 ^ 8 % 256 ::
      (f.flags * 2 ^ 24 + f.payload.length) % 256 :: f.payload := by
    simp [dfBytes, serializeDataFrame, be32, hm]
  have hd1 : beVal (f.streamId / 2 ^ 24 % 256) (f.streamId / 2 ^ 16 % 256)
      (f.streamId / 2 ^ 8 % 256) (f.streamId % 256) = f.streamId := by
    unfold beVal
    omega
  have hs' : hdrSt s (f.streamId / 2 ^ 24 % 256) (f.streamId / 2 ^ 16 % 256)
      (f.streamId / 2 ^ 8 % 256) (f.streamId % 256)
      ((f.flags * 2 ^ 24 + f.payload.length) / 2 ^ 24 % 256)
      ((f.flags * 2 ^ 24 + f.payload.length) / 2 ^ 16 % 256)
      ((f.flags * 2 ^ 24 + f.payload.length) / 2 ^ 8 % 256)
      ((f.flags * 2 ^ 24 + f.payload.length) % 256) =
      { s with flags := f.flags, frameType := 0, streamId := some f.streamId, frameLen := f.payload.length, istate := IState.reading } := by
    unfold hdrSt
    dsimp only
    rw [hd1]
    rw [if_neg (show ¬ f.streamId / 2 ^ 31 % 2 = 1 by omega)]
    have e1 : (f.flags * 2 ^ 24 + f.payload.length) / 2 ^ 24 % 256 = f.flags := by omega
    have e2 : (f.flags * 2 ^ 24 + f.payload.length) / 2 ^ 16 % 256 * 2 ^ 16 +
        ((f.flags * 2 ^ 24 + f.payload.length) / 2 ^ 8 % 256 * 256 +
         (f.flags * 2 ^ 24 + f.payload.length) % 256) = f.payload.length := by omega
    have e3 : f.streamId % 2 ^ 31 = f.streamId := Nat.mod_eq_of_lt hsid
    rw [e1, e2, e3]
  have e_eq1 : handleInput dec s (dfBytes f) =
      handleInputAux dec (2 * f.payload.length + 16 + 1 + 1) s (dfBytes f) := by
    refine handleInput_eq_aux dec s (dfBytes f) (2 * f.payload.length + 16 + 1 + 1) hbuf ?_
    rw [hst, hdata,
      show (if IState.waiting = IState.reading then 3 else 2) = 2 from by decide]
    simp only [List.length_cons]
    omega
  have e_eq2 : handleInputAux dec (2 * f.payload.length + 16 + 1 + 1) s (dfBytes f) =
      handleInputAux dec (2 * f.payload.length + 16 + 1)
        ({ s with flags := f.flags, frameType := 0, streamId := some f.streamId, frameLen := f.payload.length, istate := IState.reading }) f.payload := by
    rw [hdata,
      aux_waiting_step dec (2 * f.payload.length + 16 + 1) s (f.streamId / 2 ^ 24 % 256) (f.streamId / 2 ^ 16 % 256) (f.streamId / 2 ^ 8 % 256) (f.streamId % 256)
        ((f.flags * 2 ^ 24 + f.payload.length) / 2 ^ 24 % 256)
        ((f.flags * 2 ^ 24 + f.payload.length) / 2 ^ 16 % 256)
        ((f.flags * 2 ^ 24 + f.payload.length) / 2 ^ 8 % 256)
        ((f.flags * 2 ^ 24 + f.payload.length) % 256) f.payload hst,
      hs']
  rw [e_eq1, e_eq2]
  rw [aux_reading_frame dec (2 * f.payload.length + 16)
    ({ s with flags := f.flags, frameType := 0, streamId := some f.streamId, frameLen := f.payload.length, istate := IState.reading }) f.payload rfl (Nat.le_refl f.payload.length)]
  show (if List.drop f.payload.length f.payload = [] then
      frameDone dec ({ s with flags := f.flags, frameType := 0, streamId := some f.streamId, frameLen := f.payload.length, istate := IState.reading }) (List.take f.payload.length f.payload)
    else
      handleInputAux dec (2 * f.payload.length + 16)
        (frameDone dec ({ s with flags := f.flags, frameType := 0, streamId := some f.streamId, frameLen := f.payload.length, istate := IState.reading }) (List.take f.payload.length f.payload))
        (List.drop f.payload.length f.payload)) = _
  rw [List.drop_length, List.take_length, if_pos rfl]
  unfold frameDone
  rw [processFrame_data dec ({ s with flags := f.flags, frameType := 0, streamId := some f.streamId, frameLen := f.payload.length, istate := IState.reading }) f.payload rfl hfl]
  rfl

theorem df_run : ∀ (fs : List DataF) (dec : Bytes → Except Unit Bytes) (s : HState),
    s.buffer = [] → s.istate = IState.waiting → (∀ f ∈ fs, dfValid f = true) →
    (handleInput dec s ((fs.map dfBytes).flatten)).emitted = s.emitted ++ fs.map dfEmitted ∧
    (handleInput dec s ((fs.map dfBytes).flatten)).errors = s.errors ∧
    (handleInput dec s ((fs.map dfBytes).flatten)).istate = IState.waiting ∧
    (handleInput dec s ((fs.map dfBytes).flatten)).buffer = [] := by
  intro fs
  induction fs with
  | nil =>
    intro dec s hbuf hst _
    simp only [List.map_nil, List.flatten_nil]
    rw [handleInput_nil_waiting dec s hbuf hst]
    simp [hbuf, hst]
  | cons f rest ih =>
    intro dec s hbuf hst hv
    have hvf : dfValid f = true := hv f (by simp)
    have hvr : ∀ g ∈ rest, dfValid g = true := fun g hg => hv g (by simp [hg])
    simp only [List.map_cons, List.flatten_cons]
    rw [← handleInput_concat dec s (dfBytes f) ((rest.map dfBytes).flatten)]
    rw [handleInput_df dec s f hbuf hst hvf]
    obtain ⟨h1, h2, h3, h4⟩ := ih dec
      { s with flags := f.flags, frameType := 0, streamId := some f.streamId,
               frameLen := f.payload.length, istate := IState.waiting,
               emitted := s.emitted ++ [dfEmitted f] } hbuf rfl hvr
    refine ⟨?_, ?_, ?_, ?_⟩
    · rw [h1]
      simp
    · exact h2
    · exact h3
    · exact h4

/-- C6: multi-frame input processing.  First conjunct: `_handle_input` is
chunking-invariant — delivering any byte sequence in two chunks of arbitrary
sizes (from any handler state, with any decompressor) produces exactly the
same state as delivering it at once: partial frames are retained in the
input buffer across calls and parsing resumes when more bytes arrive.
Second conjunct: a single input containing the serialized bytes of any list
of valid DATA frames emits exactly those frames in order, with no errors,
ending back in the waiting-for-header state with an empty buffer — after
each complete frame the parser processes the remaining bytes in the same
call. -/
theorem c6_multi_frame_input :
    (∀ (dec : Bytes → Except Unit Bytes) (s : HState) (a b : Bytes),
        handleInput dec (handleInput dec s a) b = handleInput dec s (a ++ b)) ∧
    (∀ (dec : Bytes → Except Unit Bytes) (fs : List DataF),
        (∀ f ∈ fs, dfValid f = true) →
        (handleInput dec initHState ((fs.map dfBytes).flatten)).emitted =
            fs.map dfEmitted ∧
        (handleInput dec initHState ((fs.map dfBytes).flatten)).errors = [] ∧
        (handleInput dec initHState ((fs.map dfBytes).flatten)).istate =
            IState.waiting ∧
        (handleInput dec initHState ((fs.map dfBytes).flatten)).buffer = []) := by
  constructor
  · exact handleInput_concat
  · intro dec fs hv
    obtain ⟨h1, h2, h3, h4⟩ := df_run fs dec initHState rfl rfl hv
    exact ⟨by rw [h1]; rfl, h2, h3, h4⟩

/-- Witness for C6: two concrete DATA frames (stream 1 with payload
`[10, 11]`, and a FLAG_FIN empty-payload frame on stream 3), delivered with
the first frame split mid-header across two chunks, and also both at once. -/
theorem c6_witness :
    (handleInput (fun b => Except.ok b)
        (handleInput (fun b => Except.ok b) initHState
          ((dfBytes ⟨0, 1, [10, 11]⟩).take 5))
        ((dfBytes ⟨0, 1, [10, 11]⟩).drop 5 ++ dfBytes ⟨1, 3, []⟩) =
      handleInput (fun b => Except.ok b) initHState
        ((dfBytes ⟨0, 1, [10, 11]⟩).take 5 ++
          ((dfBytes ⟨0, 1, [10, 11]⟩).drop 5 ++ dfBytes ⟨1, 3, []⟩))) ∧
    (∀ f ∈ [(⟨0, 1, [10, 11]⟩ : DataF), ⟨1, 3, []⟩], dfValid f = true) ∧
    (handleInput (fun b => Except.ok b) initHState
        (([(⟨0, 1, [10, 11]⟩ : DataF), ⟨1, 3, []⟩].map dfBytes).flatten)).emitted =
      [.data 0 (some 1) [10, 11], .data 1 (some 3) []] ∧
    (handleInput (fun b => Except.ok b) initHState
        (([(⟨0, 1, [10, 11]⟩ : DataF), ⟨1, 3, []⟩].map dfBytes).flatten)).errors = [] :=
  ⟨c6_multi_frame_input.1 (fun b => Except.ok b) initHState
      ((dfBytes ⟨0, 1, [10, 11]⟩).take 5)
      ((dfBytes ⟨0, 1, [10, 11]⟩).drop 5 ++ dfBytes ⟨1, 3, []⟩),
   by decide,
   (c6_multi_frame_input.2 (fun b => Except.ok b)
      [⟨0, 1, [10, 11]⟩, ⟨1, 3, []⟩] (by decide)).1,
   (c6_multi_frame_input.2 (fun b => Except.ok b)
      [⟨0, 1, [10, 11]⟩, ⟨1, 3, []⟩] (by decide)).2.1⟩

end Thor
